import Mathlib

set_option maxHeartbeats 1000000

/-! Shallow embedding of the snapshot capture and reconciliation engine of
`bevy_save` (src/snapshot.rs), together with the external interfaces it
consumes. Machine state is explicit: a `World` carries the live entities in
iteration order, the global resources, the type registry and the saveable
registry. Reflected values are modelled as a type name plus an abstract
numeric payload standing for the serialized contents. -/

/-- A live entity id: raw index plus generation, as in `bevy_ecs`.
`Entity::from_raw` produces generation zero. -/
structure Entity where
  index : Nat
  generation : Nat
  deriving DecidableEq, Repr

/-- `Entity::from_raw`: an entity id with the given index and generation zero. -/
def Entity.fromRaw (index : Nat) : Entity :=
  { index := index, generation := 0 }

/-- An abstract reflected value: its registered type name plus a payload
standing for the serialized contents. Cloning such a value (`clone_value`)
is the identity here, since values are pure data. -/
structure Reflected where
  typeName : String
  value : Nat
  deriving DecidableEq, Repr

/-- The caller-supplied `EntityMap`, a finite partial function from captured
ids to live ids, modelled as an association list whose insert overwrites,
matching hash-map semantics. -/
abbrev EntityMap := List (Entity × Entity)

/-- Lookup in an `EntityMap` (first matching entry wins). -/
def EntityMap.get (m : EntityMap) (e : Entity) : Option Entity :=
  (m.find? (fun p => p.1 == e)).map Prod.snd

/-- Overwriting insert of an `EntityMap`, as for a hash map. -/
def EntityMap.insert (m : EntityMap) (k v : Entity) : EntityMap :=
  (k, v) :: m.filter (fun p => !(p.1 == k))

/-- A captured entity record (`SaveableEntity`): the raw numeric identity of
the captured entity plus the ordered list of captured component values. The
field shape is the one used by RawSnapshot::from_world_with_filter. -/
structure SaveableEntity where
  entity : Nat
  components : List Reflected
  deriving DecidableEq, Repr

/-- Modelled from the spec: `SaveableEntity::map` (src/entity.rs is not
present under src/) returns the explicit mapping entry for the captured
identity if present and otherwise yields no result (spec section 4.2 step 2,
the best-effort map used by the Unmapped despawn modes). -/
def SaveableEntity.map (s : SaveableEntity) (m : EntityMap) : Option Entity :=
  EntityMap.get m (Entity.fromRaw s.entity)

/-- Modelled from the spec: `SaveableEntity::try_map` (src/entity.rs is not
present under src/) resolves a record to the mapped image of its captured
identity when an explicit mapping entry exists, and otherwise to the raw
identity itself; the unmapped case is fixed by the RemoveMissing scenario of
spec section 8, where an empty mapping classifies liveness by raw identity. -/
def SaveableEntity.tryMap (s : SaveableEntity) (m : EntityMap) : Entity :=
  (EntityMap.get m (Entity.fromRaw s.entity)).getD (Entity.fromRaw s.entity)

/-- A type registry entry: the registered type name and which capability
data is attached to it (`ReflectResource`, `ReflectComponent`,
`ReflectMapEntities`). -/
structure TypeRegistration where
  typeName : String
  hasResource : Bool
  hasComponent : Bool
  hasMapEntities : Bool
  deriving DecidableEq, Repr

/-- `TypeRegistry::get_with_name`. -/
def registryGetWithName (registry : List TypeRegistration) (name : String) :
    Option TypeRegistration :=
  registry.find? (fun reg => reg.typeName == name)

/-- The unordered capture of a world: serialized resource values plus
entity records. -/
structure RawSnapshot where
  resources : List Reflected
  entities : List SaveableEntity
  deriving DecidableEq, Repr

/-- A rollback frame: a RawSnapshot restricted to rollback-eligible types. -/
structure Rollback where
  snapshot : RawSnapshot
  deriving DecidableEq, Repr

/-- Modelled from the spec: the `Rollbacks` resource (the rollback History;
its source file is not present under src/): an ordered sequence of Rollback
frames with a current cursor (spec section 3, History). Only its value
identity matters to the claims, never its internals. -/
structure Rollbacks where
  checkpoints : List Rollback
  active : Option Nat
  deriving DecidableEq, Repr

/-- A complete snapshot: an unfiltered RawSnapshot plus a deep copy of the
rollback History at capture time. -/
structure Snapshot where
  snapshot : RawSnapshot
  rollbacks : Rollbacks
  deriving DecidableEq, Repr

/-- Modelled from the spec: `SaveableError` (src/error.rs is not present
under src/), the apply-time error kinds of spec section 7, with the variant
names used by src/snapshot.rs. -/
inductive SaveableError where
  | unregisteredType (typeName : String)
  | unregisteredResource (typeName : String)
  | unregisteredComponent (typeName : String)
  | mapEntitiesError
  deriving DecidableEq, Repr

/-- A `ReadOnlyWorldQuery` despawn filter, modelled as a predicate over a
live entity and its component list. -/
abbrev EntityFilter := Entity → List Reflected → Bool

/-- The live world at the interface the engine consumes (spec section 6):
live entities in iteration order with their component lists, global
resources keyed by type name, the type registry, the saveable registry
(admitted names with their rollback-eligibility flag), the rollback History
resource, and the allocator cursor used for spawning fresh entities. -/
structure World where
  registry : List TypeRegistration
  saveables : List (String × Bool)
  resources : List Reflected
  rollbacks : Rollbacks
  entities : List (Entity × List Reflected)
  nextEntity : Nat
  deriving DecidableEq, Repr

/-- `SaveableRegistry::contains`. -/
def saveablesContains (saveables : List (String × Bool)) (name : String) : Bool :=
  saveables.any (fun p => p.1 == name)

/-- `SaveableRegistry::can_rollback`. -/
def canRollback (saveables : List (String × Bool)) (name : String) : Bool :=
  saveables.any (fun p => p.1 == name && p.2)

/-- Resource lookup by type name (`ReflectResource::reflect`). -/
def resourceGet (resources : List Reflected) (name : String) : Option Reflected :=
  resources.find? (fun r => r.typeName == name)

/-- Whether an entity id is live in the world. -/
def World.isLive (w : World) (e : Entity) : Bool :=
  w.entities.any (fun p => p.1 == e)

/-- Allocator well-formedness: every live index is below the allocator
cursor, so spawned entities are fresh. -/
def World.wf (w : World) : Prop :=
  ∀ p ∈ w.entities, p.1.index < w.nextEntity

/-- Admission test applied to each attached component during capture,
mirroring the chain in RawSnapshot::from_world_with_filter lines 181-195:
the component type name must be in the saveable registry, resolve in the
type registry, pass the capture filter, and carry ReflectComponent data. -/
def admitsComponent (w : World) (filter : TypeRegistration → Bool) (c : Reflected) : Bool :=
  saveablesContains w.saveables c.typeName &&
    match registryGetWithName w.registry c.typeName with
    | some reg => filter reg && reg.hasComponent
    | none => false

/-- The resource half of capture, mirroring lines 160-167: iterate the
saveable type names, resolve each in the registry, keep those passing the
filter and carrying ReflectResource data, and clone the value currently
held by the world, if any. -/
def captureResources (w : World) (filter : TypeRegistration → Bool) : List Reflected :=
  (w.saveables.map Prod.fst).filterMap (fun name =>
    match registryGetWithName w.registry name with
    | some reg =>
      if filter reg && reg.hasResource then resourceGet w.resources name else none
    | none => none)

/-- `RawSnapshot::from_world_with_filter`: capture the resources, then one
record per live entity in iteration order, keyed by the raw index, holding
the admitted components in component-iteration order. -/
def RawSnapshot.fromWorldWithFilter (w : World) (filter : TypeRegistration → Bool) :
    RawSnapshot :=
  { resources := captureResources w filter
    entities := w.entities.map (fun p =>
      { entity := p.1.index
        components := p.2.filter (fun c => admitsComponent w filter c) }) }

/-- Overwrite-or-append of a reflected value into a list keyed by type name;
this is the shared shape of ReflectResource::insert on the resource table
and ReflectComponent::apply_or_insert on a component list. -/
def upsertReflected (l : List Reflected) (v : Reflected) : List Reflected :=
  if l.any (fun r => r.typeName == v.typeName) then
    l.map (fun r => if r.typeName == v.typeName then v else r)
  else
    l ++ [v]

/-- Left fold of `upsertReflected` over a list of values. -/
def upsertAll (l : List Reflected) (vs : List Reflected) : List Reflected :=
  vs.foldl upsertReflected l

/-- Step 1 of Applier::apply (lines 217-237): insert each snapshot resource,
failing with UnregisteredType when the name is not registered and with
UnregisteredResource when the registration lacks ReflectResource data. The
per-resource ReflectMapEntities call is a successful no-op here because
modelled Reflected values embed no entity references. -/
def applyResources (registry : List TypeRegistration) (w : World) :
    List Reflected → Option SaveableError × World
  | [] => (none, w)
  | v :: rest =>
    match registryGetWithName registry v.typeName with
    | none => (some (SaveableError.unregisteredType v.typeName), w)
    | some reg =>
      if reg.hasResource then
        applyResources registry { w with resources := upsertReflected w.resources v } rest
      else
        (some (SaveableError.unregisteredResource v.typeName), w)

/-- `World::despawn` of one entity id. -/
def worldDespawn (w : World) (e : Entity) : World :=
  { w with entities := w.entities.filter (fun p => !(p.1 == e)) }

/-- Despawn each listed entity in turn. -/
def despawnList (w : World) (es : List Entity) : World :=
  es.foldl worldDespawn w

/-- `query_filtered::<Entity, F>`: the live entities matching the filter. -/
def queryMatches (w : World) (f : EntityFilter) : List Entity :=
  (w.entities.filter (fun p => f p.1 p.2)).map Prod.fst

/-- `DespawnMode`, with the filter carried as a predicate. -/
inductive DespawnMode where
  | missing
  | missingWith (filter : EntityFilter)
  | unmapped
  | unmappedWith (filter : EntityFilter)
  | allWith (filter : EntityFilter)
  | none

/-- `DespawnMode::unmapped_with` (src/snapshot.rs lines 67-70). -/
def DespawnMode.unmapped_with (f : EntityFilter) : DespawnMode :=
  DespawnMode.unmappedWith f

/-- `DespawnMode::all_with` exactly as written at src/snapshot.rs lines
72-75: despite its name and documentation it constructs an UnmappedWith
value, not an AllWith value. -/
def DespawnMode.all_with (f : EntityFilter) : DespawnMode :=
  DespawnMode.unmappedWith f

/-- `MappingMode`. -/
inductive MappingMode where
  | simple
  | strict

/-- Step 2 of Applier::apply (lines 241-313): classify and despawn existing
entities according to the despawn mode. -/
def despawnStep (w : World) (s : RawSnapshot) (m : EntityMap) : DespawnMode → World
  | DespawnMode.missing =>
    let valid := s.entities.map (fun e => e.tryMap m)
    despawnList w ((w.entities.map Prod.fst).filter (fun e => !(valid.contains e)))
  | DespawnMode.missingWith f =>
    let valid := s.entities.map (fun e => e.tryMap m)
    let invalid := (w.entities.map Prod.fst).filter (fun e => !(valid.contains e))
    despawnList w (invalid.filter (fun e => (queryMatches w f).contains e))
  | DespawnMode.unmapped =>
    let valid := s.entities.filterMap (fun e => e.map m)
    despawnList w ((w.entities.map Prod.fst).filter (fun e => !(valid.contains e)))
  | DespawnMode.unmappedWith f =>
    let valid := s.entities.filterMap (fun e => e.map m)
    let invalid := (w.entities.map Prod.fst).filter (fun e => !(valid.contains e))
    despawnList w (invalid.filter (fun e => (queryMatches w f).contains e))
  | DespawnMode.allWith f => despawnList w (queryMatches w f)
  | DespawnMode.none => w

/-- Step 3 of Applier::apply (lines 315-325): under MappingMode::Simple,
map `Entity::from_raw` of every live index back to the full live id. -/
def buildFallback (w : World) : EntityMap :=
  w.entities.foldl (fun m p => EntityMap.insert m (Entity.fromRaw p.1.index) p.1) []

/-- `World::spawn_empty`: a fresh entity at the allocator cursor. -/
def spawnEmpty (w : World) : Entity × World :=
  (⟨w.nextEntity, 0⟩,
    { w with
        entities := w.entities ++ [(⟨w.nextEntity, 0⟩, [])]
        nextEntity := w.nextEntity + 1 })

/-- The two-stage target lookup of the entity application loop (lines
331-333): explicit EntityMap entry first, then the identity-reuse fallback
keyed by `Entity::from_raw` of the captured identity. -/
def resolveEntity (m fallback : EntityMap) (saved : SaveableEntity) : Option Entity :=
  match saved.map m with
  | some e => some e
  | none => EntityMap.get fallback (Entity.fromRaw saved.entity)

/-- Rewrite the component list of one live entity. -/
def updateEntityComponents (l : List (Entity × List Reflected)) (e : Entity)
    (f : List Reflected → List Reflected) : List (Entity × List Reflected) :=
  l.map (fun p => if p.1 == e then (p.1, f p.2) else p)

/-- `ReflectComponent::apply_or_insert` on one live entity. If the target is
not live this is a no-op (bevy panics there; the configurations modelled
never reach that case, since fallback entries and spawned ids are live). -/
def worldApplyComponent (w : World) (e : Entity) (c : Reflected) : World :=
  { w with entities := updateEntityComponents w.entities e (fun cs => upsertReflected cs c) }

/-- The component loop of step 4 (lines 338-352): resolve each component
type by name, failing with UnregisteredType when absent and with
UnregisteredComponent when the registration lacks ReflectComponent data,
otherwise apply-or-insert the value on the target entity. -/
def applyComponents (registry : List TypeRegistration) (w : World) (e : Entity) :
    List Reflected → Option SaveableError × World
  | [] => (none, w)
  | c :: rest =>
    match registryGetWithName registry c.typeName with
    | none => (some (SaveableError.unregisteredType c.typeName), w)
    | some reg =>
      if reg.hasComponent then
        applyComponents registry (worldApplyComponent w e c) e rest
      else
        (some (SaveableError.unregisteredComponent c.typeName), w)

/-- One iteration of the entity application loop (lines 328-353): resolve
the target entity, spawning a fresh one when both lookups fail, then apply
the captured components. -/
def applyRecord (registry : List TypeRegistration) (m fallback : EntityMap)
    (w : World) (saved : SaveableEntity) : Option SaveableError × World :=
  match resolveEntity m fallback saved with
  | some e => applyComponents registry w e saved.components
  | none =>
    let s := spawnEmpty w
    applyComponents registry s.2 s.1 saved.components

/-- Step 4 of Applier::apply: process the records in order, stopping at the
first error and keeping the mutations committed so far. -/
def applyEntities (registry : List TypeRegistration) (m fallback : EntityMap)
    (w : World) : List SaveableEntity → Option SaveableError × World
  | [] => (none, w)
  | saved :: rest =>
    match applyRecord registry m fallback w saved with
    | (none, w1) => applyEntities registry m fallback w1 rest
    | r => r

/-- Step 5 of Applier::apply (lines 355-361): the closing ReflectMapEntities
pass over every registration; modelled Reflected values embed no entity
references, so every invocation is a successful no-op. -/
def mapEntitiesFixup (registry : List TypeRegistration) (m : EntityMap) (w : World) :
    Option SaveableError × World :=
  (none, w)

/-- `Applier::apply` for a RawSnapshot (src/snapshot.rs lines 211-364). The
world component of the result is the partially mutated world when the error
component is set, matching the in-place mutation of the source. -/
def Applier.apply (w : World) (s : RawSnapshot) (m : EntityMap)
    (despawn : DespawnMode) (mapping : MappingMode) : Option SaveableError × World :=
  let registry := w.registry
  match applyResources registry w s.resources with
  | (some e, w1) => (some e, w1)
  | (none, w1) =>
    let w2 := despawnStep w1 s m despawn
    let fallback : EntityMap :=
      match mapping with
      | MappingMode.simple => buildFallback w2
      | MappingMode.strict => []
    match applyEntities registry m fallback w2 s.entities with
    | (some e, w3) => (some e, w3)
    | (none, w3) => mapEntitiesFixup registry m w3

/-- `Snapshot::from_world_with_filter` (lines 497-508). -/
def Snapshot.fromWorldWithFilter (w : World) (filter : TypeRegistration → Bool) : Snapshot :=
  { snapshot := RawSnapshot.fromWorldWithFilter w filter
    rollbacks := w.rollbacks }

/-- `Snapshot::from_world`. -/
def Snapshot.fromWorld (w : World) : Snapshot :=
  Snapshot.fromWorldWithFilter w (fun _ => true)

/-- `Rollback::from_world_with_filter` (lines 394-405). -/
def Rollback.fromWorldWithFilter (w : World) (filter : TypeRegistration → Bool) : Rollback :=
  { snapshot := RawSnapshot.fromWorldWithFilter w
      (fun reg => canRollback w.saveables reg.typeName && filter reg) }

/-- Applier::apply for a Snapshot (impl_snapshot_applier, lines 547-578):
run the raw Applier, then on success overwrite the live Rollbacks resource
with a deep copy of the embedded one. -/
def Snapshot.applyWith (s : Snapshot) (w : World) (m : EntityMap)
    (despawn : DespawnMode) (mapping : MappingMode) : Option SaveableError × World :=
  match Applier.apply w s.snapshot m despawn mapping with
  | (some e, w1) => (some e, w1)
  | (none, w1) => (none, { w1 with rollbacks := s.rollbacks })

/-! ### Basic lemmas about the embedded operations -/

lemma entityMap_get_nil (e : Entity) : EntityMap.get [] e = none := rfl

lemma saveableMap_nil (s : SaveableEntity) : s.map [] = none := rfl

lemma saveableTryMap_nil (s : SaveableEntity) : s.tryMap [] = Entity.fromRaw s.entity := rfl

lemma entityMap_get_insert_self (m : EntityMap) (k v : Entity) :
    EntityMap.get (EntityMap.insert m k v) k = some v := by
  simp [EntityMap.get, EntityMap.insert]

lemma find?_filter_ne_key (m : List (Entity × Entity)) (k k2 : Entity) (h : k2 ≠ k) :
    List.find? (fun p => p.1 == k2) (m.filter (fun p => !(p.1 == k))) =
      List.find? (fun p => p.1 == k2) m := by
  induction m with
  | nil => rfl
  | cons q m ih =>
    by_cases hq : q.1 = k2
    · have hqk : ¬(q.1 = k) := fun hk => h (hq ▸ hk ▸ rfl)
      rw [List.filter_cons_of_pos (by simp [hqk]),
        List.find?_cons_of_pos _ (by simp [hq]),
        List.find?_cons_of_pos _ (by simp [hq])]
    · by_cases hk : q.1 = k
      · rw [List.filter_cons_of_neg (by simp [hk]),
          List.find?_cons_of_neg _ (by simp [hq]), ih]
      · rw [List.filter_cons_of_pos (by simp [hk]),
          List.find?_cons_of_neg _ (by simp [hq]),
          List.find?_cons_of_neg _ (by simp [hq]), ih]

lemma entityMap_get_insert_ne (m : EntityMap) (k v k2 : Entity) (h : k2 ≠ k) :
    EntityMap.get (EntityMap.insert m k v) k2 = EntityMap.get m k2 := by
  unfold EntityMap.get EntityMap.insert
  rw [List.find?_cons_of_neg _ (by simp [Ne.symm h]), find?_filter_ne_key m k k2 h]

lemma isLive_iff (w : World) (e : Entity) :
    w.isLive e = true ↔ ∃ p ∈ w.entities, p.1 = e := by
  simp [World.isLive, List.any_eq_true]

lemma applyResources_fields (registry : List TypeRegistration) (rs : List Reflected)
    (w : World) :
    (applyResources registry w rs).2.entities = w.entities ∧
    (applyResources registry w rs).2.nextEntity = w.nextEntity ∧
    (applyResources registry w rs).2.rollbacks = w.rollbacks ∧
    (applyResources registry w rs).2.registry = w.registry ∧
    (applyResources registry w rs).2.saveables = w.saveables := by
  induction rs generalizing w with
  | nil => exact ⟨rfl, rfl, rfl, rfl, rfl⟩
  | cons v rest ih =>
    unfold applyResources
    cases registryGetWithName registry v.typeName with
    | none => exact ⟨rfl, rfl, rfl, rfl, rfl⟩
    | some reg =>
      by_cases h : reg.hasResource
      · simpa [h] using ih { w with resources := upsertReflected w.resources v }
      · simp [h]

lemma despawnList_eq (es : List Entity) (w : World) :
    despawnList w es = { w with entities := w.entities.filter (fun p => !(es.contains p.1)) } := by
  induction es generalizing w with
  | nil => simp [despawnList]
  | cons e es ih =>
    show despawnList (worldDespawn w e) es = _
    rw [ih]
    unfold worldDespawn
    congr 1
    rw [List.filter_filter]
    apply List.filter_congr
    intro a _
    by_cases h1 : a.1 = e <;> by_cases h2 : es.contains a.1 = true <;>
      simp_all

lemma updateEntityComponents_fst (l : List (Entity × List Reflected)) (e : Entity)
    (f : List Reflected → List Reflected) :
    (updateEntityComponents l e f).map Prod.fst = l.map Prod.fst := by
  unfold updateEntityComponents
  rw [List.map_map]
  apply List.map_congr_left
  intro p _
  by_cases h : p.1 = e <;> simp [h]

lemma updateEntityComponents_length (l : List (Entity × List Reflected)) (e : Entity)
    (f : List Reflected → List Reflected) :
    (updateEntityComponents l e f).length = l.length := by
  simp [updateEntityComponents]

lemma updateEntityComponents_comp (l : List (Entity × List Reflected)) (e : Entity)
    (f g : List Reflected → List Reflected) :
    updateEntityComponents (updateEntityComponents l e f) e g =
      updateEntityComponents l e (fun x => g (f x)) := by
  unfold updateEntityComponents
  rw [List.map_map]
  apply List.map_congr_left
  intro p _
  by_cases h : p.1 = e <;> simp [h]

lemma updateEntityComponents_noop (l : List (Entity × List Reflected)) (e : Entity)
    (f : List Reflected → List Reflected) (h : ∀ p ∈ l, p.1 = e → f p.2 = p.2) :
    updateEntityComponents l e f = l := by
  unfold updateEntityComponents
  have : ∀ p ∈ l, (if p.1 == e then (p.1, f p.2) else p) = id p := by
    intro p hp
    by_cases he : p.1 = e
    · simp [he, h p hp he]
      rw [← he]
    · simp [he]
  rw [List.map_congr_left this, List.map_id]

lemma applyComponents_fields (registry : List TypeRegistration) (cs : List Reflected)
    (w : World) (e : Entity) :
    (applyComponents registry w e cs).2.entities.map Prod.fst = w.entities.map Prod.fst ∧
    (applyComponents registry w e cs).2.entities.length = w.entities.length ∧
    (applyComponents registry w e cs).2.nextEntity = w.nextEntity ∧
    (applyComponents registry w e cs).2.resources = w.resources ∧
    (applyComponents registry w e cs).2.rollbacks = w.rollbacks ∧
    (applyComponents registry w e cs).2.registry = w.registry ∧
    (applyComponents registry w e cs).2.saveables = w.saveables := by
  induction cs generalizing w with
  | nil => exact ⟨rfl, rfl, rfl, rfl, rfl, rfl, rfl⟩
  | cons c rest ih =>
    unfold applyComponents
    cases registryGetWithName registry c.typeName with
    | none => exact ⟨rfl, rfl, rfl, rfl, rfl, rfl, rfl⟩
    | some reg =>
      by_cases h : reg.hasComponent
      · have := ih (worldApplyComponent w e c)
        simpa [h, worldApplyComponent, updateEntityComponents_fst,
          updateEntityComponents_length] using this
      · simp [h]

lemma applyComponents_ok (registry : List TypeRegistration) (cs : List Reflected)
    (w : World) (e : Entity)
    (h : ∀ c ∈ cs, ∃ reg, registryGetWithName registry c.typeName = some reg ∧
      reg.hasComponent = true) :
    applyComponents registry w e cs =
      (none, { w with entities := updateEntityComponents w.entities e (fun l => upsertAll l cs) }) := by
  induction cs generalizing w with
  | nil =>
    have : updateEntityComponents w.entities e (fun l => upsertAll l []) = w.entities := by
      apply updateEntityComponents_noop
      intro p _ _
      rfl
    simp [applyComponents, this]
  | cons c rest ih =>
    obtain ⟨reg, hreg, hc⟩ := h c (List.mem_cons_self c rest)
    unfold applyComponents
    rw [hreg]
    simp only [hc, if_true]
    rw [ih (worldApplyComponent w e c) (fun c2 hc2 => h c2 (List.mem_cons_of_mem c hc2))]
    unfold worldApplyComponent
    congr 2
    rw [updateEntityComponents_comp]
    rfl

lemma isLive_congr (w1 w2 : World)
    (h : w1.entities.map Prod.fst = w2.entities.map Prod.fst) (x : Entity) :
    w1.isLive x = w2.isLive x := by
  have key : ∀ (l : List (Entity × List Reflected)),
      l.any (fun p => p.1 == x) = (l.map Prod.fst).any (fun y => y == x) := by
    intro l
    induction l with
    | nil => rfl
    | cons p l ih => rw [List.map_cons, List.any_cons, List.any_cons, ih]
  unfold World.isLive
  rw [key, key, h]

lemma applyRecord_track (registry : List TypeRegistration) (m fallback : EntityMap)
    (w : World) (saved : SaveableEntity) :
    w.nextEntity ≤ (applyRecord registry m fallback w saved).2.nextEntity ∧
    (∀ x, w.isLive x = true → (applyRecord registry m fallback w saved).2.isLive x = true) ∧
    (∀ x, (applyRecord registry m fallback w saved).2.isLive x = true →
      w.isLive x = true ∨ w.nextEntity ≤ x.index) ∧
    (applyRecord registry m fallback w saved).2.resources = w.resources ∧
    (applyRecord registry m fallback w saved).2.rollbacks = w.rollbacks ∧
    (applyRecord registry m fallback w saved).2.registry = w.registry ∧
    (applyRecord registry m fallback w saved).2.saveables = w.saveables := by
  unfold applyRecord
  cases resolveEntity m fallback saved with
  | some e =>
    obtain ⟨hfst, hlen, hnext, hres, hrb, hreg, hsav⟩ :=
      applyComponents_fields registry saved.components w e
    refine ⟨le_of_eq hnext.symm, ?_, ?_, hres, hrb, hreg, hsav⟩
    · intro x hx
      rwa [isLive_congr _ w hfst x]
    · intro x hx
      rw [isLive_congr _ w hfst x] at hx
      exact Or.inl hx
  | none =>
    set w1 := (spawnEmpty w).2 with hw1
    obtain ⟨hfst, hlen, hnext, hres, hrb, hreg, hsav⟩ :=
      applyComponents_fields registry saved.components w1 (spawnEmpty w).1
    have hfst1 : w1.entities.map Prod.fst =
        w.entities.map Prod.fst ++ [(⟨w.nextEntity, 0⟩ : Entity)] := by
      simp [hw1, spawnEmpty]
    refine ⟨?_, ?_, ?_, hres, hrb, hreg, hsav⟩
    · rw [hnext]
      show w.nextEntity ≤ w.nextEntity + 1
      omega
    · intro x hx
      rw [isLive_congr _ w1 hfst]
      rw [isLive_iff] at hx ⊢
      obtain ⟨p, hp, hpx⟩ := hx
      exact ⟨p, by simp [hw1, spawnEmpty, List.mem_append, hp], hpx⟩
    · intro x hx
      rw [isLive_congr _ w1 hfst, isLive_iff] at hx
      obtain ⟨p, hp, hpx⟩ := hx
      rcases (by simpa [hw1, spawnEmpty] using hp :
          p ∈ w.entities ∨ p = ((⟨w.nextEntity, 0⟩ : Entity), ([] : List Reflected))) with h1 | h2
      · exact Or.inl ((isLive_iff w x).mpr ⟨p, h1, hpx⟩)
      · right
        rw [← hpx, h2]

lemma applyEntities_track (registry : List TypeRegistration) (m fallback : EntityMap)
    (rs : List SaveableEntity) (w : World) :
    w.nextEntity ≤ (applyEntities registry m fallback w rs).2.nextEntity ∧
    (∀ x, w.isLive x = true → (applyEntities registry m fallback w rs).2.isLive x = true) ∧
    (∀ x, (applyEntities registry m fallback w rs).2.isLive x = true →
      w.isLive x = true ∨ w.nextEntity ≤ x.index) ∧
    (applyEntities registry m fallback w rs).2.resources = w.resources ∧
    (applyEntities registry m fallback w rs).2.rollbacks = w.rollbacks ∧
    (applyEntities registry m fallback w rs).2.registry = w.registry ∧
    (applyEntities registry m fallback w rs).2.saveables = w.saveables := by
  induction rs generalizing w with
  | nil => exact ⟨Nat.le_refl _, fun x h => h, fun x h => Or.inl h, rfl, rfl, rfl, rfl⟩
  | cons saved rest ih =>
    obtain ⟨hn1, hl1, hd1, hres1, hrb1, hreg1, hsav1⟩ :=
      applyRecord_track registry m fallback w saved
    unfold applyEntities
    cases hrec : applyRecord registry m fallback w saved with
    | mk err w1 =>
      rw [hrec] at hn1 hl1 hd1 hres1 hrb1 hreg1 hsav1
      cases err with
      | none =>
        obtain ⟨hn2, hl2, hd2, hres2, hrb2, hreg2, hsav2⟩ := ih w1
        refine ⟨Nat.le_trans hn1 hn2, ?_, ?_, hres2.trans hres1, hrb2.trans hrb1,
          hreg2.trans hreg1, hsav2.trans hsav1⟩
        · intro x hx
          exact hl2 x (hl1 x hx)
        · intro x hx
          rcases hd2 x hx with h1 | h2
          · exact hd1 x h1
          · exact Or.inr (Nat.le_trans hn1 h2)
      | some e =>
        exact ⟨hn1, hl1, hd1, hres1, hrb1, hreg1, hsav1⟩

lemma despawnStep_fields (w : World) (s : RawSnapshot) (m : EntityMap) (dm : DespawnMode) :
    (despawnStep w s m dm).resources = w.resources ∧
    (despawnStep w s m dm).nextEntity = w.nextEntity ∧
    (despawnStep w s m dm).rollbacks = w.rollbacks ∧
    (despawnStep w s m dm).registry = w.registry ∧
    (despawnStep w s m dm).saveables = w.saveables := by
  cases dm <;> simp [despawnStep, despawnList_eq]

lemma despawnStep_missing_eq (w : World) (s : RawSnapshot) (m : EntityMap) :
    despawnStep w s m DespawnMode.missing =
      { w with
          entities := w.entities.filter
            (fun p => (s.entities.map (fun e => e.tryMap m)).contains p.1) } := by
  have h0 : despawnStep w s m DespawnMode.missing =
      despawnList w ((w.entities.map Prod.fst).filter
        (fun e => !((s.entities.map (fun r => r.tryMap m)).contains e))) := rfl
  rw [h0, despawnList_eq]
  congr 1
  apply List.filter_congr
  intro p hp
  have hmem : p.1 ∈ w.entities.map Prod.fst := List.mem_map_of_mem Prod.fst hp
  by_cases hv : ((s.entities.map (fun e => e.tryMap m)).contains p.1) = true <;>
    simp_all

lemma despawnStep_unmapped_nil_map (w : World) (s : RawSnapshot) :
    despawnStep w s [] DespawnMode.unmapped = { w with entities := [] } := by
  have h0 : despawnStep w s [] DespawnMode.unmapped =
      despawnList w ((w.entities.map Prod.fst).filter
        (fun e => !((s.entities.filterMap (fun r => r.map ([] : EntityMap))).contains e))) := rfl
  have hvalid : s.entities.filterMap (fun r => r.map ([] : EntityMap)) = [] := by
    simp [saveableMap_nil]
  rw [h0, hvalid, despawnList_eq]
  congr 1
  rw [List.filter_eq_nil_iff]
  intro p hp
  have hmem : p.1 ∈ (w.entities.map Prod.fst).filter (fun e => !(([] : List Entity).contains e)) := by
    simp [List.mem_filter, List.mem_map_of_mem Prod.fst hp]
  simp [hmem]
  exact ⟨p.2, hp⟩

lemma despawnStep_unmappedWith_true_nil_map (w : World) (s : RawSnapshot) :
    despawnStep w s [] (DespawnMode.unmappedWith (fun _ _ => true)) =
      { w with entities := [] } := by
  have h0 : despawnStep w s [] (DespawnMode.unmappedWith (fun _ _ => true)) =
      despawnList w
        (((w.entities.map Prod.fst).filter
            (fun e => !((s.entities.filterMap (fun r => r.map ([] : EntityMap))).contains e))).filter
          (fun e => (queryMatches w (fun _ _ => true)).contains e)) := rfl
  have hvalid : s.entities.filterMap (fun r => r.map ([] : EntityMap)) = [] := by
    simp [saveableMap_nil]
  have hq : queryMatches w (fun _ _ => true) = w.entities.map Prod.fst := by
    simp [queryMatches]
  rw [h0, hvalid, hq, despawnList_eq]
  congr 1
  rw [List.filter_eq_nil_iff]
  intro p hp
  have h1 : p.1 ∈ w.entities.map Prod.fst := List.mem_map_of_mem Prod.fst hp
  have hmem : p.1 ∈ ((w.entities.map Prod.fst).filter
      (fun e => !(([] : List Entity).contains e))).filter
        (fun e => (w.entities.map Prod.fst).contains e) := by
    simp [List.mem_filter, h1]
  simp [hmem]
  exact ⟨p.2, hp⟩

/-! ### Lemmas about upsert by type name -/

/-- Every entry of a list whose type name equals that of `v` is `v` itself. -/
def allName (l : List Reflected) (v : Reflected) : Prop :=
  ∀ r ∈ l, r.typeName = v.typeName → r = v

lemma mem_upsertReflected (l : List Reflected) (v r : Reflected)
    (hr : r ∈ upsertReflected l v) :
    r = v ∨ (r ∈ l ∧ r.typeName ≠ v.typeName) := by
  unfold upsertReflected at hr
  by_cases h : l.any (fun x => x.typeName == v.typeName) = true
  · rw [if_pos h] at hr
    obtain ⟨x, hx, hfx⟩ := List.mem_map.mp hr
    by_cases hxn : x.typeName = v.typeName
    · left
      rw [← hfx]
      simp [hxn]
    · right
      rw [← hfx, if_neg (by simp [hxn])]
      exact ⟨hx, hxn⟩
  · rw [if_neg h] at hr
    rcases List.mem_append.mp hr with h1 | h2
    · right
      refine ⟨h1, fun hn => h ?_⟩
      exact List.any_eq_true.mpr ⟨r, h1, by simp [hn]⟩
    · left
      simpa using h2

lemma self_mem_upsertReflected (l : List Reflected) (v : Reflected) :
    v ∈ upsertReflected l v := by
  unfold upsertReflected
  by_cases h : l.any (fun x => x.typeName == v.typeName) = true
  · rw [if_pos h]
    obtain ⟨x, hx, hxn⟩ := List.any_eq_true.mp h
    refine List.mem_map.mpr ⟨x, hx, ?_⟩
    simp only [hxn, if_true]
  · rw [if_neg h]
    simp

lemma mem_upsertReflected_of_ne (l : List Reflected) (v r : Reflected) (hr : r ∈ l)
    (hn : r.typeName ≠ v.typeName) : r ∈ upsertReflected l v := by
  unfold upsertReflected
  by_cases h : l.any (fun x => x.typeName == v.typeName) = true
  · rw [if_pos h]
    exact List.mem_map.mpr ⟨r, hr, by simp [hn]⟩
  · rw [if_neg h]
    exact List.mem_append_left _ hr

lemma allName_upsert_self (l : List Reflected) (v : Reflected) :
    allName (upsertReflected l v) v := by
  intro r hr hn
  rcases mem_upsertReflected l v r hr with h | ⟨_, hne⟩
  · exact h
  · exact absurd hn hne

lemma allName_upsert_preserve (l : List Reflected) (v v2 : Reflected)
    (hn : v.typeName ≠ v2.typeName) (h : allName l v) :
    allName (upsertReflected l v2) v := by
  intro r hr hrn
  rcases mem_upsertReflected l v2 r hr with h2 | ⟨hmem, _⟩
  · exact absurd (h2 ▸ hrn : v2.typeName = v.typeName) (Ne.symm hn)
  · exact h r hmem hrn

lemma upsert_self_of_allName (l : List Reflected) (v : Reflected)
    (hall : allName l v) (hmem : v ∈ l) : upsertReflected l v = l := by
  unfold upsertReflected
  rw [if_pos (List.any_eq_true.mpr ⟨v, hmem, by simp⟩)]
  have : ∀ r ∈ l, (if r.typeName == v.typeName then v else r) = id r := by
    intro r hr
    by_cases h : r.typeName = v.typeName
    · rw [if_pos (by simp [h])]
      exact (hall r hr h).symm
    · rw [if_neg (by simp [h])]
      rfl
  rw [List.map_congr_left this, List.map_id]

lemma upsertAll_cons (l : List Reflected) (v : Reflected) (vs : List Reflected) :
    upsertAll l (v :: vs) = upsertAll (upsertReflected l v) vs := rfl

lemma mem_upsertAll_preserve (vs : List Reflected) (M : List Reflected) (v : Reflected)
    (hmem : v ∈ M) (h : ∀ v2 ∈ vs, v.typeName ≠ v2.typeName) : v ∈ upsertAll M vs := by
  induction vs generalizing M with
  | nil => exact hmem
  | cons v2 vs ih =>
    rw [upsertAll_cons]
    exact ih (upsertReflected M v2)
      (mem_upsertReflected_of_ne M v2 v hmem (h v2 (List.mem_cons_self v2 vs)))
      (fun v3 hv3 => h v3 (List.mem_cons_of_mem v2 hv3))

lemma allName_upsertAll_preserve (vs : List Reflected) (M : List Reflected) (v : Reflected)
    (hall : allName M v) (h : ∀ v2 ∈ vs, v.typeName ≠ v2.typeName) :
    allName (upsertAll M vs) v := by
  induction vs generalizing M with
  | nil => exact hall
  | cons v2 vs ih =>
    rw [upsertAll_cons]
    exact ih (upsertReflected M v2)
      (allName_upsert_preserve M v v2 (h v2 (List.mem_cons_self v2 vs)) hall)
      (fun v3 hv3 => h v3 (List.mem_cons_of_mem v2 hv3))

lemma upsertAll_establishes (vs : List Reflected) (l : List Reflected)
    (hnodup : (vs.map (fun v => v.typeName)).Nodup) :
    ∀ v ∈ vs, v ∈ upsertAll l vs ∧ allName (upsertAll l vs) v := by
  induction vs generalizing l with
  | nil => intro v hv; cases hv
  | cons v2 vs ih =>
    have hnd2 : v2.typeName ∉ vs.map (fun v => v.typeName) :=
      (List.nodup_cons.mp hnodup).1
    have hndtail : (vs.map (fun v => v.typeName)).Nodup :=
      (List.nodup_cons.mp hnodup).2
    intro v hv
    rcases List.mem_cons.mp hv with hv2 | hvs
    · subst hv2
      have hne : ∀ v3 ∈ vs, v.typeName ≠ v3.typeName := by
        intro v3 hv3 hn
        apply hnd2
        rw [hn]
        exact List.mem_map_of_mem (fun r => r.typeName) hv3
      rw [upsertAll_cons]
      constructor
      · exact mem_upsertAll_preserve vs _ v (self_mem_upsertReflected l v) hne
      · exact allName_upsertAll_preserve vs _ v (allName_upsert_self l v) hne
    · rw [upsertAll_cons]
      exact ih (upsertReflected l v2) hndtail v hvs

lemma upsertAll_fixed (vs : List Reflected) (l : List Reflected)
    (h : ∀ v ∈ vs, v ∈ l ∧ allName l v) : upsertAll l vs = l := by
  induction vs with
  | nil => rfl
  | cons v vs ih =>
    rw [upsertAll_cons,
      upsert_self_of_allName l v (h v (List.mem_cons_self v vs)).2
        (h v (List.mem_cons_self v vs)).1]
    exact ih (fun v2 hv2 => h v2 (List.mem_cons_of_mem v hv2))

lemma upsertAll_idem (l : List Reflected) (vs : List Reflected)
    (hnodup : (vs.map (fun v => v.typeName)).Nodup) :
    upsertAll (upsertAll l vs) vs = upsertAll l vs :=
  upsertAll_fixed vs (upsertAll l vs) (upsertAll_establishes vs l hnodup)

lemma upsertAll_append_of_disjoint (vs : List Reflected) (l : List Reflected)
    (hd : ∀ v ∈ vs, ∀ r ∈ l, r.typeName ≠ v.typeName)
    (hnodup : (vs.map (fun v => v.typeName)).Nodup) :
    upsertAll l vs = l ++ vs := by
  induction vs generalizing l with
  | nil => simp [upsertAll]
  | cons v vs ih =>
    have hup : upsertReflected l v = l ++ [v] := by
      unfold upsertReflected
      rw [if_neg]
      intro hany
      obtain ⟨r, hr, hrn⟩ := List.any_eq_true.mp hany
      exact hd v (List.mem_cons_self v vs) r hr (by simpa using hrn)
    rw [upsertAll_cons, hup, ih (l ++ [v]) ?_ (List.nodup_cons.mp hnodup).2]
    · rw [List.append_assoc]
      rfl
    · intro v2 hv2 r hr
      rcases List.mem_append.mp hr with h1 | h2
      · exact hd v2 (List.mem_cons_of_mem v hv2) r h1
      · have hrv : r = v := by simpa using h2
        subst hrv
        intro hn
        apply (List.nodup_cons.mp hnodup).1
        show r.typeName ∈ vs.map (fun x => x.typeName)
        rw [hn]
        exact List.mem_map_of_mem (fun x => x.typeName) hv2

lemma applyResources_ok (registry : List TypeRegistration) (rs : List Reflected) (w : World)
    (h : ∀ v ∈ rs, ∃ reg, registryGetWithName registry v.typeName = some reg ∧
      reg.hasResource = true) :
    applyResources registry w rs = (none, { w with resources := upsertAll w.resources rs }) := by
  induction rs generalizing w with
  | nil => rfl
  | cons v rest ih =>
    obtain ⟨reg, hreg, hr⟩ := h v (List.mem_cons_self v rest)
    unfold applyResources
    rw [hreg]
    simp only [hr, if_true]
    rw [ih { w with resources := upsertReflected w.resources v }
      (fun v2 hv2 => h v2 (List.mem_cons_of_mem v hv2))]
    rfl

/-! ### Lemmas about the identity-reuse fallback map -/

lemma fallback_foldl_absent (l : List (Entity × List Reflected)) (m0 : EntityMap) (k : Entity)
    (h : ∀ p ∈ l, Entity.fromRaw p.1.index ≠ k) :
    EntityMap.get
      (l.foldl (fun m p => EntityMap.insert m (Entity.fromRaw p.1.index) p.1) m0) k =
      EntityMap.get m0 k := by
  induction l generalizing m0 with
  | nil => rfl
  | cons q l ih =>
    rw [List.foldl_cons, ih _ (fun p hp => h p (List.mem_cons_of_mem q hp)),
      entityMap_get_insert_ne m0 _ q.1 k (Ne.symm (h q (List.mem_cons_self q l)))]

lemma fallback_foldl_sound (l : List (Entity × List Reflected)) (m0 : EntityMap)
    (k t : Entity)
    (h : EntityMap.get
      (l.foldl (fun m p => EntityMap.insert m (Entity.fromRaw p.1.index) p.1) m0) k = some t) :
    (∃ p ∈ l, Entity.fromRaw p.1.index = k ∧ p.1 = t) ∨ EntityMap.get m0 k = some t := by
  induction l generalizing m0 with
  | nil => exact Or.inr h
  | cons q l ih =>
    rw [List.foldl_cons] at h
    rcases ih _ h with h1 | h2
    · obtain ⟨p, hp, h3, h4⟩ := h1
      exact Or.inl ⟨p, List.mem_cons_of_mem q hp, h3, h4⟩
    · by_cases hk : k = Entity.fromRaw q.1.index
      · subst hk
        rw [entityMap_get_insert_self] at h2
        exact Or.inl ⟨q, List.mem_cons_self q l, rfl, Option.some_inj.mp h2⟩
      · rw [entityMap_get_insert_ne _ _ _ _ hk] at h2
        exact Or.inr h2

lemma fallback_foldl_isSome (l : List (Entity × List Reflected)) (m0 : EntityMap) (k : Entity)
    (h : ∃ p ∈ l, Entity.fromRaw p.1.index = k) :
    (EntityMap.get
      (l.foldl (fun m p => EntityMap.insert m (Entity.fromRaw p.1.index) p.1) m0) k).isSome
      = true := by
  induction l generalizing m0 with
  | nil =>
    obtain ⟨p, hp, _⟩ := h
    cases hp
  | cons q l ih =>
    rw [List.foldl_cons]
    by_cases h2 : ∃ p ∈ l, Entity.fromRaw p.1.index = k
    · exact ih _ h2
    · obtain ⟨p, hp, hpk⟩ := h
      rcases List.mem_cons.mp hp with hq | hpl
      · subst hq
        rw [fallback_foldl_absent l _ k (fun p2 hp2 hk2 => h2 ⟨p2, hp2, hk2⟩), ← hpk,
          entityMap_get_insert_self]
        rfl
      · exact absurd ⟨p, hpl, hpk⟩ h2

lemma fallback_foldl_nodup (l : List (Entity × List Reflected))
    (p : Entity × List Reflected) :
    ∀ (m0 : EntityMap), p ∈ l → ((l.map (fun q => q.1.index)).Nodup) →
      EntityMap.get
        (l.foldl (fun m q => EntityMap.insert m (Entity.fromRaw q.1.index) q.1) m0)
        (Entity.fromRaw p.1.index) = some p.1 := by
  induction l with
  | nil =>
    intro m0 hp _
    cases hp
  | cons q l ih =>
    intro m0 hp hidx
    rw [List.foldl_cons]
    rcases List.mem_cons.mp hp with hq | hpl
    · subst hq
      have habs : ∀ p2 ∈ l, Entity.fromRaw p2.1.index ≠ Entity.fromRaw p.1.index := by
        intro p2 hp2 hk
        have heq : p2.1.index = p.1.index := by
          have h3 := congrArg (fun e : Entity => e.index) hk
          simpa [Entity.fromRaw] using h3
        apply (List.nodup_cons.mp hidx).1
        show p.1.index ∈ l.map (fun q2 => q2.1.index)
        rw [← heq]
        exact List.mem_map_of_mem (fun q2 => q2.1.index) hp2
      rw [fallback_foldl_absent l _ _ habs, entityMap_get_insert_self]
    · exact ih _ hpl ((List.nodup_cons.mp hidx).2)

lemma buildFallback_get_sound (w : World) (k t : Entity)
    (h : EntityMap.get (buildFallback w) k = some t) :
    ∃ p ∈ w.entities, Entity.fromRaw p.1.index = k ∧ p.1 = t := by
  rcases fallback_foldl_sound w.entities [] k t h with h1 | h2
  · exact h1
  · cases h2

lemma buildFallback_get_isSome (w : World) (k : Entity)
    (h : ∃ p ∈ w.entities, Entity.fromRaw p.1.index = k) :
    (EntityMap.get (buildFallback w) k).isSome = true :=
  fallback_foldl_isSome w.entities [] k h

lemma buildFallback_get_nodup (w : World) (p : Entity × List Reflected)
    (hp : p ∈ w.entities) (hidx : (w.entities.map (fun q => q.1.index)).Nodup) :
    EntityMap.get (buildFallback w) (Entity.fromRaw p.1.index) = some p.1 :=
  fallback_foldl_nodup w.entities p [] hp hidx

lemma buildFallback_congr (w1 w2 : World)
    (h : w1.entities.map Prod.fst = w2.entities.map Prod.fst) :
    buildFallback w1 = buildFallback w2 := by
  unfold buildFallback
  have key : ∀ (l1 l2 : List (Entity × List Reflected)) (m0 : EntityMap),
      l1.map Prod.fst = l2.map Prod.fst →
      l1.foldl (fun m p => EntityMap.insert m (Entity.fromRaw p.1.index) p.1) m0 =
      l2.foldl (fun m p => EntityMap.insert m (Entity.fromRaw p.1.index) p.1) m0 := by
    intro l1
    induction l1 with
    | nil =>
      intro l2 m0 hm
      cases l2 with
      | nil => rfl
      | cons q l2 => simp at hm
    | cons q l1 ih =>
      intro l2 m0 hm
      cases l2 with
      | nil => simp at hm
      | cons q2 l2 =>
        rw [List.map_cons, List.map_cons] at hm
        have h1 : q.1 = q2.1 := by
          injection hm
        have h2 : l1.map Prod.fst = l2.map Prod.fst := by
          injection hm
        rw [List.foldl_cons, List.foldl_cons, h1]
        exact ih l2 _ h2
  exact key w1.entities w2.entities [] h

/-! ### Lemmas about resource lookup -/

lemma find?_name_eq (l : List Reflected) (n : String) (v : Reflected)
    (h : resourceGet l n = some v) : v.typeName = n := by
  have := List.find?_some h
  simpa using this

lemma resourceGet_eq_some_of_all (l : List Reflected) (n : String) (v : Reflected)
    (hex : ∃ r ∈ l, r.typeName = n) (hall : ∀ r ∈ l, r.typeName = n → r = v) :
    resourceGet l n = some v := by
  induction l with
  | nil =>
    obtain ⟨r, hr, _⟩ := hex
    cases hr
  | cons r l ih =>
    by_cases hn : r.typeName = n
    · have hrv : r = v := hall r (List.mem_cons_self r l) hn
      unfold resourceGet
      rw [List.find?_cons_of_pos _ (by simp [hn]), hrv]
    · unfold resourceGet
      rw [List.find?_cons_of_neg _ (by simp [hn])]
      apply ih
      · rcases hex with ⟨r2, hr2, hn2⟩
        rcases List.mem_cons.mp hr2 with hq | h2
        · exact absurd (hq ▸ hn2) hn
        · exact ⟨r2, h2, hn2⟩
      · exact fun r2 h2 => hall r2 (List.mem_cons_of_mem r h2)

lemma resourceGet_eq_none_of_none (l : List Reflected) (n : String)
    (h : ∀ r ∈ l, r.typeName ≠ n) : resourceGet l n = none := by
  unfold resourceGet
  rw [List.find?_eq_none]
  intro r hr
  simp [h r hr]

lemma resourceGet_map_upsert_ne (l : List Reflected) (v : Reflected) (n : String)
    (hn : n ≠ v.typeName) :
    resourceGet (l.map (fun r => if r.typeName == v.typeName then v else r)) n =
      resourceGet l n := by
  induction l with
  | nil => rfl
  | cons r l ih =>
    rw [List.map_cons]
    by_cases hr : r.typeName = v.typeName
    · unfold resourceGet
      rw [if_pos (by simp [hr]), List.find?_cons_of_neg _ (by simp [Ne.symm hn]),
        List.find?_cons_of_neg _ (by simp [hr, Ne.symm hn])]
      exact ih
    · rw [if_neg (by simp [hr])]
      by_cases hrn : r.typeName = n
      · unfold resourceGet
        rw [List.find?_cons_of_pos _ (by simp [hrn]), List.find?_cons_of_pos _ (by simp [hrn])]
      · unfold resourceGet
        rw [List.find?_cons_of_neg _ (by simp [hrn]), List.find?_cons_of_neg _ (by simp [hrn])]
        exact ih

lemma resourceGet_upsert (l : List Reflected) (v : Reflected) (n : String) :
    resourceGet (upsertReflected l v) n =
      if n = v.typeName then some v else resourceGet l n := by
  by_cases hn : n = v.typeName
  · rw [if_pos hn]
    subst hn
    exact resourceGet_eq_some_of_all _ _ _
      ⟨v, self_mem_upsertReflected l v, rfl⟩
      (allName_upsert_self l v)
  · rw [if_neg hn]
    unfold upsertReflected
    by_cases h : l.any (fun x => x.typeName == v.typeName) = true
    · rw [if_pos h]
      exact resourceGet_map_upsert_ne l v n hn
    · rw [if_neg h]
      unfold resourceGet
      rw [List.find?_append]
      have : List.find? (fun r => r.typeName == n) [v] = none := by
        simp [Ne.symm hn]
      rw [this, Option.or_none]

lemma resourceGet_upsertAll (l : List Reflected) (vs : List Reflected) (n : String) :
    resourceGet (upsertAll l vs) n = (resourceGet vs.reverse n).or (resourceGet l n) := by
  induction vs generalizing l with
  | nil => simp [upsertAll, resourceGet]
  | cons v vs ih =>
    rw [upsertAll_cons, ih, resourceGet_upsert]
    have hrev : resourceGet ((v :: vs).reverse) n =
        (resourceGet vs.reverse n).or (resourceGet [v] n) := by
      unfold resourceGet
      rw [List.reverse_cons, List.find?_append]
    rw [hrev, Option.or_assoc]
    congr 1
    by_cases hn : n = v.typeName
    · rw [if_pos hn]
      have : resourceGet [v] n = some v := by
        simp [resourceGet, hn]
      rw [this]
      rfl
    · rw [if_neg hn]
      have : resourceGet [v] n = none := by
        simp [resourceGet, Ne.symm hn]
      rw [this]
      rfl

lemma captureResources_mem (w : World) (filter : TypeRegistration → Bool) (v : Reflected)
    (hv : v ∈ captureResources w filter) :
    ∃ reg, registryGetWithName w.registry v.typeName = some reg ∧
      reg.hasResource = true ∧ filter reg = true ∧
      resourceGet w.resources v.typeName = some v := by
  unfold captureResources at hv
  obtain ⟨name, hname, hg⟩ := List.mem_filterMap.mp hv
  cases hreg : registryGetWithName w.registry name with
  | none =>
    rw [hreg] at hg
    cases hg
  | some reg =>
    rw [hreg] at hg
    have hg2 : (if (filter reg && reg.hasResource) = true
        then resourceGet w.resources name else none) = some v := hg
    by_cases hc : (filter reg && reg.hasResource) = true
    · rw [if_pos hc] at hg2
      have hn : v.typeName = name := find?_name_eq _ _ _ hg2
      have hcc : filter reg = true ∧ reg.hasResource = true := by
        rw [Bool.and_eq_true] at hc
        exact hc
      refine ⟨reg, by rw [hn]; exact hreg, hcc.2, hcc.1, by rw [hn]; exact hg2⟩
    · rw [if_neg hc] at hg2
      cases hg2

lemma captureResources_exists (w : World) (filter : TypeRegistration → Bool)
    (n : String) (v : Reflected) (reg : TypeRegistration)
    (hsv : saveablesContains w.saveables n = true)
    (hreg : registryGetWithName w.registry n = some reg) (hf : filter reg = true)
    (hr : reg.hasResource = true)
    (hres : resourceGet w.resources n = some v) :
    v ∈ captureResources w filter := by
  unfold captureResources
  apply List.mem_filterMap.mpr
  refine ⟨n, ?_, ?_⟩
  · obtain ⟨p, hp, hpn⟩ := List.any_eq_true.mp hsv
    have hp1 : p.1 = n := by simpa using hpn
    exact hp1 ▸ List.mem_map_of_mem Prod.fst hp
  · rw [hreg]
    show (if (filter reg && reg.hasResource) = true
        then resourceGet w.resources n else none) = some v
    rw [if_pos (by simp [hf, hr])]
    exact hres

/-! ### Step lemmas for the entity application loop -/

lemma applyEntities_nil (registry : List TypeRegistration) (m fallback : EntityMap)
    (w : World) : applyEntities registry m fallback w [] = (none, w) := rfl

lemma applyEntities_cons_ok (registry : List TypeRegistration) (m fallback : EntityMap)
    (w : World) (r : SaveableEntity) (rs : List SaveableEntity) (w1 : World)
    (h : applyRecord registry m fallback w r = (none, w1)) :
    applyEntities registry m fallback w (r :: rs) = applyEntities registry m fallback w1 rs := by
  show (match applyRecord registry m fallback w r with
    | (none, w2) => applyEntities registry m fallback w2 rs
    | r2 => r2) = applyEntities registry m fallback w1 rs
  rw [h]

lemma applyEntities_cons_err (registry : List TypeRegistration) (m fallback : EntityMap)
    (w : World) (r : SaveableEntity) (rs : List SaveableEntity) (e : SaveableError)
    (w1 : World) (h : applyRecord registry m fallback w r = (some e, w1)) :
    applyEntities registry m fallback w (r :: rs) = (some e, w1) := by
  show (match applyRecord registry m fallback w r with
    | (none, w2) => applyEntities registry m fallback w2 rs
    | r2 => r2) = (some e, w1)
  rw [h]

lemma updateEntityComponents_append (l : List (Entity × List Reflected)) (e : Entity)
    (cs0 : List Reflected) (f : List Reflected → List Reflected)
    (h : ∀ p ∈ l, p.1 ≠ e) :
    updateEntityComponents (l ++ [(e, cs0)]) e f = l ++ [(e, f cs0)] := by
  unfold updateEntityComponents
  rw [List.map_append]
  congr 1
  · have key : ∀ p ∈ l, (if p.1 == e then (p.1, f p.2) else p) = id p := by
      intro p hp
      simp [h p hp]
    rw [List.map_congr_left key, List.map_id]
  · simp

/-- The entity list produced by repeatedly spawning fresh entities, starting
at allocator cursor `n`, and applying each record of the list onto its fresh
empty entity. Specification helper used to state what the strict mapping
mode produces. -/
def spawnedFrom : Nat → List SaveableEntity → List (Entity × List Reflected)
  | _, [] => []
  | n, r :: rs => (⟨n, 0⟩, upsertAll [] r.components) :: spawnedFrom (n + 1) rs

lemma spawnedFrom_length (n : Nat) (rs : List SaveableEntity) :
    (spawnedFrom n rs).length = rs.length := by
  induction rs generalizing n with
  | nil => rfl
  | cons r rs ih => simp [spawnedFrom, ih]

lemma applyEntities_strict_spawn (registry : List TypeRegistration)
    (rs : List SaveableEntity) (w : World) (hwf : World.wf w)
    (hcomp : ∀ r ∈ rs, ∀ c ∈ r.components, ∃ reg,
      registryGetWithName registry c.typeName = some reg ∧ reg.hasComponent = true) :
    applyEntities registry [] [] w rs =
      (none, { w with
          entities := w.entities ++ spawnedFrom w.nextEntity rs
          nextEntity := w.nextEntity + rs.length }) := by
  induction rs generalizing w with
  | nil =>
    rw [applyEntities_nil]
    simp [spawnedFrom]
  | cons r rs ih =>
    have hrec0 : applyRecord registry [] [] w r =
        applyComponents registry (spawnEmpty w).2 (spawnEmpty w).1 r.components := rfl
    have hupd : updateEntityComponents
        (w.entities ++ [((⟨w.nextEntity, 0⟩ : Entity), ([] : List Reflected))])
        (⟨w.nextEntity, 0⟩ : Entity) (fun l => upsertAll l r.components) =
        w.entities ++ [((⟨w.nextEntity, 0⟩ : Entity), upsertAll [] r.components)] := by
      apply updateEntityComponents_append
      intro p hp hpe
      have hlt := hwf p hp
      rw [hpe] at hlt
      exact Nat.lt_irrefl _ hlt
    have hrec : applyRecord registry [] [] w r =
        (none, { w with
            entities := w.entities ++ [((⟨w.nextEntity, 0⟩ : Entity), upsertAll [] r.components)]
            nextEntity := w.nextEntity + 1 }) := by
      rw [hrec0, applyComponents_ok registry r.components _ _
        (hcomp r (List.mem_cons_self r rs))]
      show ((none : Option SaveableError), _) = _
      rw [Prod.mk.injEq]
      refine ⟨rfl, ?_⟩
      show ({ (spawnEmpty w).2 with
          entities := updateEntityComponents (spawnEmpty w).2.entities (spawnEmpty w).1
            (fun l => upsertAll l r.components) } : World) = _
      rw [show (spawnEmpty w).2.entities =
          w.entities ++ [((⟨w.nextEntity, 0⟩ : Entity), ([] : List Reflected))] from rfl]
      rw [show (spawnEmpty w).1 = (⟨w.nextEntity, 0⟩ : Entity) from rfl, hupd]
      rfl
    rw [applyEntities_cons_ok registry [] [] w r rs _ hrec]
    have hwf2 : World.wf { w with
        entities := w.entities ++ [((⟨w.nextEntity, 0⟩ : Entity), upsertAll [] r.components)]
        nextEntity := w.nextEntity + 1 } := by
      intro p hp
      rcases List.mem_append.mp hp with h1 | h2
      · exact Nat.lt_trans (hwf p h1) (Nat.lt_succ_self _)
      · have : p = ((⟨w.nextEntity, 0⟩ : Entity), upsertAll [] r.components) := by
          simpa using h2
        rw [this]
        exact Nat.lt_succ_self _
    rw [ih _ hwf2 (fun r2 hr2 => hcomp r2 (List.mem_cons_of_mem r hr2))]
    have hent : (w.entities ++ [((⟨w.nextEntity, 0⟩ : Entity), upsertAll [] r.components)]) ++
        spawnedFrom (w.nextEntity + 1) rs = w.entities ++ spawnedFrom w.nextEntity (r :: rs) := by
      rw [List.append_assoc, List.singleton_append]
      rfl
    have hnext : (w.nextEntity + 1) + rs.length = w.nextEntity + (r :: rs).length := by
      rw [List.length_cons]
      omega
    rw [Prod.mk.injEq]
    refine ⟨rfl, ?_⟩
    show ({ w with
        entities := (w.entities ++ [((⟨w.nextEntity, 0⟩ : Entity), upsertAll [] r.components)]) ++
          spawnedFrom (w.nextEntity + 1) rs
        nextEntity := (w.nextEntity + 1) + rs.length } : World) = _
    rw [hent, hnext]

lemma applierApply_eq (w : World) (s : RawSnapshot) (m : EntityMap)
    (dm : DespawnMode) (mm : MappingMode) :
    Applier.apply w s m dm mm =
      match applyResources w.registry w s.resources with
      | (some e, w1) => (some e, w1)
      | (none, w1) =>
        match applyEntities w.registry m
            (match mm with
             | MappingMode.simple => buildFallback (despawnStep w1 s m dm)
             | MappingMode.strict => []) (despawnStep w1 s m dm) s.entities with
        | (some e, w3) => (some e, w3)
        | (none, w3) => mapEntitiesFixup w.registry m w3 := rfl

lemma applierApply_inner (X : Option SaveableError × World)
    (registry : List TypeRegistration) (m : EntityMap) :
    (match X with
     | (some e, w3) => (some e, w3)
     | (none, w3) => mapEntitiesFixup registry m w3) = X := by
  rcases X with ⟨err, w3⟩
  cases err <;> rfl

lemma applierApply_eq2 (w : World) (s : RawSnapshot) (m : EntityMap)
    (dm : DespawnMode) (mm : MappingMode) :
    Applier.apply w s m dm mm =
      match applyResources w.registry w s.resources with
      | (some e, w1) => (some e, w1)
      | (none, w1) =>
        applyEntities w.registry m
          (match mm with
           | MappingMode.simple => buildFallback (despawnStep w1 s m dm)
           | MappingMode.strict => []) (despawnStep w1 s m dm) s.entities := by
  rw [applierApply_eq]
  cases hres : applyResources w.registry w s.resources with
  | mk err w1 =>
    cases err with
    | some e => rfl
    | none => exact applierApply_inner _ _ _

lemma applierApply_fields (w : World) (s : RawSnapshot) (m : EntityMap)
    (dm : DespawnMode) (mm : MappingMode) :
    (Applier.apply w s m dm mm).2.rollbacks = w.rollbacks ∧
    (Applier.apply w s m dm mm).2.registry = w.registry ∧
    (Applier.apply w s m dm mm).2.saveables = w.saveables := by
  rw [applierApply_eq2]
  cases hres : applyResources w.registry w s.resources with
  | mk err w1 =>
    have h1 := applyResources_fields w.registry s.resources w
    rw [hres] at h1
    obtain ⟨-, -, hrb1, hreg1, hsav1⟩ := h1
    cases err with
    | some e => exact ⟨hrb1, hreg1, hsav1⟩
    | none =>
      obtain ⟨-, -, hrb2, hreg2, hsav2⟩ := despawnStep_fields w1 s m dm
      obtain ⟨-, -, -, -, hrb3, hreg3, hsav3⟩ := applyEntities_track w.registry m
        (match mm with
          | MappingMode.simple => buildFallback (despawnStep w1 s m dm)
          | MappingMode.strict => []) s.entities (despawnStep w1 s m dm)
      exact ⟨(hrb3.trans hrb2).trans hrb1, (hreg3.trans hreg2).trans hreg1,
        (hsav3.trans hsav2).trans hsav1⟩

lemma applyComponents_cons_unreg (registry : List TypeRegistration) (w : World) (e : Entity)
    (c : Reflected) (cs : List Reflected)
    (hc : registryGetWithName registry c.typeName = none) :
    applyComponents registry w e (c :: cs) =
      (some (SaveableError.unregisteredType c.typeName), w) := by
  unfold applyComponents
  rw [hc]

lemma applyComponents_cons_nocap (registry : List TypeRegistration) (w : World) (e : Entity)
    (c : Reflected) (cs : List Reflected) (reg : TypeRegistration)
    (hreg : registryGetWithName registry c.typeName = some reg)
    (h : reg.hasComponent = false) :
    applyComponents registry w e (c :: cs) =
      (some (SaveableError.unregisteredComponent c.typeName), w) := by
  unfold applyComponents
  rw [hreg]
  simp [h]

lemma applyComponents_cons_hascap (registry : List TypeRegistration) (w : World) (e : Entity)
    (c : Reflected) (cs : List Reflected) (reg : TypeRegistration)
    (hreg : registryGetWithName registry c.typeName = some reg)
    (h : reg.hasComponent = true) :
    applyComponents registry w e (c :: cs) =
      applyComponents registry (worldApplyComponent w e c) e cs := by
  show (match registryGetWithName registry c.typeName with
    | none => (some (SaveableError.unregisteredType c.typeName), w)
    | some reg2 =>
      if reg2.hasComponent then
        applyComponents registry (worldApplyComponent w e c) e cs
      else (some (SaveableError.unregisteredComponent c.typeName), w)) =
    applyComponents registry (worldApplyComponent w e c) e cs
  rw [hreg]
  simp [h]

/-! ### The claims -/

/-- C1, a defect in the code: `DespawnMode::all_with` (src/snapshot.rs
lines 72-75) constructs an `UnmappedWith` value although its name and
documentation promise `AllWith`. Consequently applying a snapshot
configured with `DespawnMode.all_with` does not remove the matching live
entities unconditionally: with the mapping sending captured identity 5 to
the live entity of index 0, and a snapshot holding a record for identity 5,
the live entity 0 matches the all-true filter yet is kept, because it is
the mapped image of a record. -/
theorem claim1_all_with_is_unmapped_with :
    DespawnMode.all_with (fun _ _ => true) = DespawnMode.unmappedWith (fun _ _ => true) ∧
    (let w : World := { registry := [], saveables := [], resources := [],
                        rollbacks := { checkpoints := [], active := Option.none },
                        entities := [(⟨0, 0⟩, [])], nextEntity := 1 }
     let s : RawSnapshot := { resources := [], entities := [⟨5, []⟩] }
     let m : EntityMap := [(Entity.fromRaw 5, ⟨0, 0⟩)]
     (Applier.apply w s m (DespawnMode.all_with (fun _ _ => true))
        MappingMode.strict).2.isLive ⟨0, 0⟩ = true) := by
  exact ⟨rfl, by decide⟩

/-- C5: RawSnapshot capture is total (its type returns a snapshot, no error
is possible); it produces exactly one EntityRecord per live entity, in
entity-iteration order, keyed by the raw index, holding exactly the
admitted components in component order; an entity with no admitted
components still yields a record with an empty component list. -/
theorem claim5_capture_total (w : World) (filter : TypeRegistration → Bool) :
    (RawSnapshot.fromWorldWithFilter w filter).entities =
      w.entities.map (fun p =>
        { entity := p.1.index
          components := p.2.filter (fun c => admitsComponent w filter c) }) ∧
    (RawSnapshot.fromWorldWithFilter w filter).entities.length = w.entities.length ∧
    (RawSnapshot.fromWorldWithFilter w filter).entities.map (fun r => r.entity) =
      w.entities.map (fun p => p.1.index) ∧
    (∀ p ∈ w.entities, p.2.filter (fun c => admitsComponent w filter c) = [] →
      ({ entity := p.1.index, components := [] } : SaveableEntity) ∈
        (RawSnapshot.fromWorldWithFilter w filter).entities) := by
  refine ⟨rfl, by simp [RawSnapshot.fromWorldWithFilter], ?_, ?_⟩
  · show (w.entities.map (fun p =>
        ({ entity := p.1.index
           components := p.2.filter (fun c => admitsComponent w filter c) } :
          SaveableEntity))).map (fun r => r.entity) = w.entities.map (fun p => p.1.index)
    rw [List.map_map]
    rfl
  · intro p hp hfe
    have hm := List.mem_map_of_mem (fun p =>
      ({ entity := p.1.index
         components := p.2.filter (fun c => admitsComponent w filter c) } :
        SaveableEntity)) hp
    have hm2 : ({ entity := p.1.index, components := p.2.filter (fun c => admitsComponent w filter c) } : SaveableEntity) ∈ (RawSnapshot.fromWorldWithFilter w filter).entities := hm
    rw [hfe] at hm2
    exact hm2

/-- Fixture for the C5 witness: a world with one saveable component type
and one entity carrying only a component of an unregistered type. -/
def c5World : World :=
  { registry := [{ typeName := "Position", hasResource := false, hasComponent := true, hasMapEntities := false }]
    saveables := [("Position", true)]
    resources := []
    rollbacks := { checkpoints := [], active := Option.none }
    entities := [(⟨2, 0⟩, [{ typeName := "Unknown", value := 9 }])]
    nextEntity := 3 }

theorem claim5_capture_total_witness :
    ({ entity := 2, components := [] } : SaveableEntity) ∈
      (RawSnapshot.fromWorldWithFilter c5World (fun _ => true)).entities := by
  exact (claim5_capture_total c5World (fun _ => true)).2.2.2
    (⟨2, 0⟩, [{ typeName := "Unknown", value := 9 }]) (List.Mem.head _) (by decide)

/-- C6: Snapshot apply overwrites the live Rollbacks resource with the
embedded copy exactly when the underlying raw Applier succeeds; on failure
the raw error is propagated unchanged and the History of the returned,
possibly partially mutated, world is the original one, because the raw
Applier itself never touches the Rollbacks resource. -/
theorem claim6_snapshot_history (w : World) (s : Snapshot) (m : EntityMap)
    (dm : DespawnMode) (mm : MappingMode) :
    (Applier.apply w s.snapshot m dm mm).2.rollbacks = w.rollbacks ∧
    ((Applier.apply w s.snapshot m dm mm).1 = none →
      Snapshot.applyWith s w m dm mm =
        (none, { (Applier.apply w s.snapshot m dm mm).2 with rollbacks := s.rollbacks })) ∧
    (∀ e, (Applier.apply w s.snapshot m dm mm).1 = some e →
      Snapshot.applyWith s w m dm mm = (some e, (Applier.apply w s.snapshot m dm mm).2) ∧
      (Snapshot.applyWith s w m dm mm).2.rollbacks = w.rollbacks) := by
  have hrb := (applierApply_fields w s.snapshot m dm mm).1
  refine ⟨hrb, ?_, ?_⟩
  · intro h1
    unfold Snapshot.applyWith
    cases hA : Applier.apply w s.snapshot m dm mm with
    | mk err w1 =>
      rw [hA] at h1
      have h2 : err = none := h1
      subst h2
      rfl
  · intro e h1
    unfold Snapshot.applyWith
    cases hA : Applier.apply w s.snapshot m dm mm with
    | mk err w1 =>
      rw [hA] at h1 hrb
      have h2 : err = some e := h1
      subst h2
      exact ⟨rfl, hrb⟩

/-- Fixture for the C6 witness: a snapshot whose resource type is not
registered, so the raw Applier fails with UnregisteredType. -/
def c6World : World :=
  { registry := [], saveables := [], resources := []
    rollbacks := { checkpoints := [], active := some 3 }, entities := [], nextEntity := 0 }

/-- Fixture for the C6 witness. -/
def c6Snapshot : Snapshot :=
  { snapshot := { resources := [{ typeName := "Nope", value := 0 }], entities := [] }
    rollbacks := { checkpoints := [], active := Option.none } }

theorem claim6_snapshot_history_witness :
    Snapshot.applyWith c6Snapshot c6World [] DespawnMode.none MappingMode.strict =
      (some (SaveableError.unregisteredType "Nope"),
        (Applier.apply c6World c6Snapshot.snapshot [] DespawnMode.none MappingMode.strict).2) ∧
    (Snapshot.applyWith c6Snapshot c6World [] DespawnMode.none
      MappingMode.strict).2.rollbacks = c6World.rollbacks := by
  exact (claim6_snapshot_history c6World c6Snapshot [] DespawnMode.none
    MappingMode.strict).2.2 (SaveableError.unregisteredType "Nope") (by decide)

/-- C10: the identity-reuse fallback map keys every live entity by
Entity::from_raw of its raw index, that is with the generation zeroed, and
maps it to the full live id; record resolution under an empty EntityMap
looks up Entity::from_raw of the captured identity, so a record with
identity N reuses the live entity whose index is N regardless of that
entity generation. -/
theorem claim10_fallback_raw_index (w : World)
    (hidx : (w.entities.map (fun q => q.1.index)).Nodup) :
    (∀ p ∈ w.entities,
      EntityMap.get (buildFallback w) (Entity.fromRaw p.1.index) = some p.1) ∧
    (∀ p ∈ w.entities, ∀ cs : List Reflected,
      resolveEntity [] (buildFallback w)
        { entity := p.1.index, components := cs } = some p.1) := by
  refine ⟨fun p hp => buildFallback_get_nodup w p hp hidx, fun p hp cs => ?_⟩
  show EntityMap.get (buildFallback w) (Entity.fromRaw p.1.index) = some p.1
  exact buildFallback_get_nodup w p hp hidx

/-- Fixture for the C10 witness: a live entity with index 4 and nonzero
generation 7. -/
def c10World : World :=
  { registry := [], saveables := [], resources := []
    rollbacks := { checkpoints := [], active := Option.none }
    entities := [(⟨4, 7⟩, [])], nextEntity := 5 }

theorem claim10_fallback_raw_index_witness :
    EntityMap.get (buildFallback c10World) (Entity.fromRaw 4) = some ⟨4, 7⟩ ∧
    resolveEntity [] (buildFallback c10World) { entity := 4, components := [] } =
      some ⟨4, 7⟩ := by
  have h := claim10_fallback_raw_index c10World (by decide)
  exact ⟨h.1 (⟨4, 7⟩, []) (List.Mem.head _), h.2 (⟨4, 7⟩, []) (List.Mem.head _) []⟩

/-- C7: a serialized component whose type name is absent from the live
registry aborts the apply immediately with UnregisteredType, and a
registered type without ReflectComponent data aborts with
UnregisteredComponent; components after the failing one in the same record,
and records after the failing record, are not processed, and the world
returned alongside the error is exactly the world with all mutations
committed before the error, with nothing rolled back. -/
theorem claim7_error_propagation :
    (∀ (registry : List TypeRegistration) (w w1 : World) (e : Entity)
      (cs1 cs2 : List Reflected) (c : Reflected),
      applyComponents registry w e cs1 = (none, w1) →
      registryGetWithName registry c.typeName = none →
      applyComponents registry w e (cs1 ++ c :: cs2) =
        (some (SaveableError.unregisteredType c.typeName), w1)) ∧
    (∀ (registry : List TypeRegistration) (w w1 : World) (e : Entity)
      (cs1 cs2 : List Reflected) (c : Reflected) (reg : TypeRegistration),
      applyComponents registry w e cs1 = (none, w1) →
      registryGetWithName registry c.typeName = some reg →
      reg.hasComponent = false →
      applyComponents registry w e (cs1 ++ c :: cs2) =
        (some (SaveableError.unregisteredComponent c.typeName), w1)) ∧
    (∀ (registry : List TypeRegistration) (m fallback : EntityMap) (w w1 w2 : World)
      (rs1 rs2 : List SaveableEntity) (r : SaveableEntity) (err : SaveableError),
      applyEntities registry m fallback w rs1 = (none, w1) →
      applyRecord registry m fallback w1 r = (some err, w2) →
      applyEntities registry m fallback w (rs1 ++ r :: rs2) = (some err, w2)) ∧
    (∀ (w : World) (s : RawSnapshot) (m : EntityMap) (dm : DespawnMode) (mm : MappingMode)
      (w1 w2 : World) (err : SaveableError),
      applyResources w.registry w s.resources = (none, w1) →
      applyEntities w.registry m
        (match mm with
         | MappingMode.simple => buildFallback (despawnStep w1 s m dm)
         | MappingMode.strict => []) (despawnStep w1 s m dm) s.entities = (some err, w2) →
      Applier.apply w s m dm mm = (some err, w2)) := by
  refine ⟨?_, ?_, ?_, ?_⟩
  · intro registry w w1 e cs1 cs2 c h1 hc
    induction cs1 generalizing w with
    | nil =>
      have hw : w = w1 := congrArg Prod.snd h1
      rw [List.nil_append, applyComponents_cons_unreg registry w e c cs2 hc, hw]
    | cons c1 cs1 ih =>
      cases hr1 : registryGetWithName registry c1.typeName with
      | none =>
        rw [applyComponents_cons_unreg registry w e c1 cs1 hr1] at h1
        exact absurd (congrArg Prod.fst h1) (by simp)
      | some reg1 =>
        by_cases hcap : reg1.hasComponent = true
        · rw [applyComponents_cons_hascap registry w e c1 cs1 reg1 hr1 hcap] at h1
          rw [List.cons_append,
            applyComponents_cons_hascap registry w e c1 (cs1 ++ c :: cs2) reg1 hr1 hcap]
          exact ih _ h1
        · rw [applyComponents_cons_nocap registry w e c1 cs1 reg1 hr1
            (Bool.eq_false_iff.mpr hcap)] at h1
          exact absurd (congrArg Prod.fst h1) (by simp)
  · intro registry w w1 e cs1 cs2 c reg h1 hreg hnc
    induction cs1 generalizing w with
    | nil =>
      have hw : w = w1 := congrArg Prod.snd h1
      rw [List.nil_append, applyComponents_cons_nocap registry w e c cs2 reg hreg hnc, hw]
    | cons c1 cs1 ih =>
      cases hr1 : registryGetWithName registry c1.typeName with
      | none =>
        rw [applyComponents_cons_unreg registry w e c1 cs1 hr1] at h1
        exact absurd (congrArg Prod.fst h1) (by simp)
      | some reg1 =>
        by_cases hcap : reg1.hasComponent = true
        · rw [applyComponents_cons_hascap registry w e c1 cs1 reg1 hr1 hcap] at h1
          rw [List.cons_append,
            applyComponents_cons_hascap registry w e c1 (cs1 ++ c :: cs2) reg1 hr1 hcap]
          exact ih _ h1
        · rw [applyComponents_cons_nocap registry w e c1 cs1 reg1 hr1
            (Bool.eq_false_iff.mpr hcap)] at h1
          exact absurd (congrArg Prod.fst h1) (by simp)
  · intro registry m fallback w w1 w2 rs1 rs2 r err h1 h2
    induction rs1 generalizing w with
    | nil =>
      have hw : w = w1 := congrArg Prod.snd h1
      rw [List.nil_append]
      subst hw
      exact applyEntities_cons_err registry m fallback w r rs2 err w2 h2
    | cons r1 rs1 ih =>
      cases har : applyRecord registry m fallback w r1 with
      | mk err1 wa =>
        cases err1 with
        | none =>
          rw [applyEntities_cons_ok registry m fallback w r1 rs1 wa har] at h1
          rw [List.cons_append, applyEntities_cons_ok registry m fallback w r1
            (rs1 ++ r :: rs2) wa har]
          exact ih _ h1
        | some e1 =>
          rw [applyEntities_cons_err registry m fallback w r1 rs1 e1 wa har] at h1
          exact absurd (congrArg Prod.fst h1) (by simp)
  · intro w s m dm mm w1 w2 err h1 h2
    rw [applierApply_eq2, h1]
    exact h2

/-- Fixture for the C7 witness: a bare world with an unregistered type. -/
def c7World : World :=
  { registry := [], saveables := [], resources := []
    rollbacks := { checkpoints := [], active := Option.none }
    entities := [(⟨0, 0⟩, [])], nextEntity := 1 }

theorem claim7_error_propagation_witness :
    applyComponents [] c7World ⟨0, 0⟩ [{ typeName := "Nope", value := 0 }] =
      (some (SaveableError.unregisteredType "Nope"), c7World) := by
  have h := claim7_error_propagation
  exact h.1 [] c7World c7World ⟨0, 0⟩ [] [] { typeName := "Nope", value := 0 } rfl rfl

lemma contains_iff_mem {α : Type} [BEq α] [LawfulBEq α] (l : List α) (a : α) :
    l.contains a = true ↔ a ∈ l := List.elem_iff

lemma entity_eq_fromRaw (e : Entity) (h : e.generation = 0) :
    e = Entity.fromRaw e.index := by
  cases e with
  | mk i g =>
    cases h
    rfl

lemma missing_liveness_core (W : World) (s : RawSnapshot) (w1 : World) (fb : EntityMap)
    (hent1 : w1.entities = W.entities) (hnext1 : w1.nextEntity = W.nextEntity)
    (hwf : World.wf W) (hgen : ∀ p ∈ W.entities, p.1.generation = 0)
    (p : Entity × List Reflected) (hp : p ∈ W.entities) :
    (applyEntities W.registry [] fb (despawnStep w1 s [] DespawnMode.missing)
      s.entities).2.isLive p.1 = true ↔
      p.1.index ∈ s.entities.map (fun r => r.entity) := by
  have hw2e : despawnStep w1 s [] DespawnMode.missing =
      { w1 with
          entities := w1.entities.filter
            (fun q => (s.entities.map (fun r => r.tryMap ([] : EntityMap))).contains q.1) } :=
    despawnStep_missing_eq w1 s []
  obtain ⟨htn, htl, htd, -, -, -, -⟩ := applyEntities_track W.registry [] fb s.entities
    (despawnStep w1 s [] DespawnMode.missing)
  constructor
  · intro hlive
    rcases htd p.1 hlive with h1 | h2
    · rw [isLive_iff] at h1
      obtain ⟨q, hq, hqp⟩ := h1
      rw [hw2e] at hq
      have hq2 := List.mem_filter.mp hq
      have hc := hq2.2
      rw [hqp] at hc
      have hmem := (contains_iff_mem _ _).mp hc
      obtain ⟨r, hr, hre⟩ := List.mem_map.mp hmem
      rw [saveableTryMap_nil] at hre
      have hidr : r.entity = p.1.index := congrArg Entity.index hre
      rw [← hidr]
      exact List.mem_map_of_mem (fun r2 => r2.entity) hr
    · have hn2 : (despawnStep w1 s [] DespawnMode.missing).nextEntity = W.nextEntity := by
        rw [hw2e]
        exact hnext1
      rw [hn2] at h2
      exact absurd h2 (Nat.not_le.mpr (hwf p hp))
  · intro hidx
    apply htl
    rw [hw2e, isLive_iff]
    refine ⟨p, List.mem_filter.mpr ⟨by rw [hent1]; exact hp, ?_⟩, rfl⟩
    apply (contains_iff_mem _ _).mpr
    obtain ⟨r, hr, hre⟩ := List.mem_map.mp hidx
    refine List.mem_map.mpr ⟨r, hr, ?_⟩
    rw [saveableTryMap_nil, hre]
    exact (entity_eq_fromRaw p.1 (hgen p hp)).symm

/-- C3: with DespawnMode::Missing and an empty EntityMap, a pre-existing
live entity survives the apply exactly when its raw index occurs among the
captured identities of the snapshot records (all live generations being
zero); in particular on a world with live entities 1, 2 and 3 and a
snapshot holding records for 1 and 3, entity 2 is removed and entities 1
and 3 are kept with their captured components reapplied. -/
theorem claim3_remove_missing (W : World) (s : RawSnapshot) (mm : MappingMode)
    (hwf : World.wf W)
    (hgen : ∀ p ∈ W.entities, p.1.generation = 0)
    (hres : (applyResources W.registry W s.resources).1 = none) :
    (∀ p ∈ W.entities,
      ((Applier.apply W s [] DespawnMode.missing mm).2.isLive p.1 = true ↔
        p.1.index ∈ s.entities.map (fun r => r.entity))) ∧
    (let reg3 : List TypeRegistration :=
      [{ typeName := "Position", hasResource := false, hasComponent := true, hasMapEntities := false }]
     let w3 : World := { registry := reg3, saveables := [("Position", true)], resources := [],
                         rollbacks := { checkpoints := [], active := Option.none },
                         entities := [(⟨1, 0⟩, [⟨"Position", 10⟩]), (⟨2, 0⟩, [⟨"Position", 20⟩]),
                           (⟨3, 0⟩, [⟨"Position", 30⟩])],
                         nextEntity := 4 }
     let s3 : RawSnapshot := { resources := []
                               entities := [⟨1, [⟨"Position", 11⟩]⟩, ⟨3, [⟨"Position", 33⟩]⟩] }
     Applier.apply w3 s3 [] DespawnMode.missing MappingMode.simple =
       (none, { w3 with entities := [(⟨1, 0⟩, [⟨"Position", 11⟩]), (⟨3, 0⟩, [⟨"Position", 33⟩])] })) := by
  refine ⟨?_, by decide⟩
  intro p hp
  rw [applierApply_eq2]
  cases hresE : applyResources W.registry W s.resources with
  | mk err w1 =>
    rw [hresE] at hres
    have herr : err = none := hres
    subst herr
    obtain ⟨hent1, hnext1, -, -, -⟩ := applyResources_fields W.registry s.resources W
    rw [hresE] at hent1 hnext1
    cases mm with
    | simple =>
      show (applyEntities W.registry []
          (buildFallback (despawnStep w1 s [] DespawnMode.missing))
          (despawnStep w1 s [] DespawnMode.missing) s.entities).2.isLive p.1 = true ↔
        p.1.index ∈ s.entities.map (fun r => r.entity)
      exact missing_liveness_core W s w1 _ hent1 hnext1 hwf hgen p hp
    | strict =>
      show (applyEntities W.registry [] []
          (despawnStep w1 s [] DespawnMode.missing) s.entities).2.isLive p.1 = true ↔
        p.1.index ∈ s.entities.map (fun r => r.entity)
      exact missing_liveness_core W s w1 [] hent1 hnext1 hwf hgen p hp

/-- Fixture for the C3 witness: the spec scenario world with entities 1, 2
and 3. -/
def c3World : World :=
  { registry := [{ typeName := "Position", hasResource := false, hasComponent := true, hasMapEntities := false }]
    saveables := [("Position", true)]
    resources := []
    rollbacks := { checkpoints := [], active := Option.none }
    entities := [(⟨1, 0⟩, [⟨"Position", 10⟩]), (⟨2, 0⟩, [⟨"Position", 20⟩]),
      (⟨3, 0⟩, [⟨"Position", 30⟩])]
    nextEntity := 4 }

/-- Fixture for the C3 witness: records for identities 1 and 3 only. -/
def c3Snap : RawSnapshot :=
  { resources := [], entities := [⟨1, [⟨"Position", 11⟩]⟩, ⟨3, [⟨"Position", 33⟩]⟩] }

theorem claim3_remove_missing_witness :
    (Applier.apply c3World c3Snap [] DespawnMode.missing MappingMode.simple).2.isLive
      ⟨2, 0⟩ = false := by
  have h := claim3_remove_missing c3World c3Snap MappingMode.simple
    (show ∀ p ∈ c3World.entities, p.1.index < c3World.nextEntity by decide) (by decide) rfl
  have hmem : ((⟨2, 0⟩ : Entity), [(⟨"Position", 20⟩ : Reflected)]) ∈ c3World.entities :=
    List.Mem.tail _ (List.Mem.head _)
  apply Bool.eq_false_iff.mpr
  intro hh
  exact absurd ((h.1 _ hmem).mp hh) (by decide)

lemma spawnedFrom_mem_index (n : Nat) (rs : List SaveableEntity)
    (q : Entity × List Reflected) (hq : q ∈ spawnedFrom n rs) : n ≤ q.1.index := by
  induction rs generalizing n with
  | nil => cases hq
  | cons r rs ih =>
    rcases List.mem_cons.mp hq with h1 | h2
    · rw [h1]
    · exact Nat.le_trans (Nat.le_succ n) (ih (n + 1) h2)

lemma isLive_false_iff (w : World) (x : Entity) :
    w.isLive x = false ↔ ∀ p ∈ w.entities, p.1 ≠ x := by
  simp [World.isLive, List.any_eq_false]

/-- C9: under DespawnMode::Unmapped, or UnmappedWith with an all-matching
filter, and an empty EntityMap, no record maps to a live entity, so every
pre-existing live entity is despawned before the records are re-created as
fresh entities; presence of a live raw identity in the snapshot does not
protect it, unlike RemoveMissing. -/
theorem claim9_unmapped_despawns_all (W : World) (s : RawSnapshot) (mm : MappingMode)
    (dm : DespawnMode)
    (hdm : dm = DespawnMode.unmapped ∨ dm = DespawnMode.unmappedWith (fun _ _ => true))
    (hwf : World.wf W)
    (hres : (applyResources W.registry W s.resources).1 = none)
    (hcomp : ∀ r ∈ s.entities, ∀ c ∈ r.components, ∃ reg,
      registryGetWithName W.registry c.typeName = some reg ∧ reg.hasComponent = true) :
    (Applier.apply W s [] dm mm).1 = none ∧
    (Applier.apply W s [] dm mm).2.entities.length = s.entities.length ∧
    (∀ p ∈ W.entities, (Applier.apply W s [] dm mm).2.isLive p.1 = false) := by
  rw [applierApply_eq2]
  cases hresE : applyResources W.registry W s.resources with
  | mk err w1 =>
    rw [hresE] at hres
    have herr : err = none := hres
    subst herr
    obtain ⟨hent1, hnext1, -, -, -⟩ := applyResources_fields W.registry s.resources W
    rw [hresE] at hent1 hnext1
    have hdesp : despawnStep w1 s [] dm = { w1 with entities := [] } := by
      rcases hdm with h | h
      · rw [h]
        exact despawnStep_unmapped_nil_map w1 s
      · rw [h]
        exact despawnStep_unmappedWith_true_nil_map w1 s
    have hwf2 : World.wf { w1 with entities := [] } := by
      intro p hp
      cases hp
    have happ := applyEntities_strict_spawn W.registry s.entities
      { w1 with entities := [] } hwf2 hcomp
    have core :
        (applyEntities W.registry [] []
          { w1 with entities := [] } s.entities).1 = none ∧
        (applyEntities W.registry [] []
          { w1 with entities := [] } s.entities).2.entities.length = s.entities.length ∧
        (∀ p ∈ W.entities, (applyEntities W.registry [] []
          { w1 with entities := [] } s.entities).2.isLive p.1 = false) := by
      rw [happ]
      refine ⟨rfl, ?_, ?_⟩
      · show (([] : List (Entity × List Reflected)) ++
          spawnedFrom w1.nextEntity s.entities).length = s.entities.length
        rw [List.nil_append, spawnedFrom_length]
      · intro p hp
        apply (isLive_false_iff _ _).mpr
        intro q hq hqp
        have hq2 : q ∈ spawnedFrom w1.nextEntity s.entities := by
          simpa using hq
        have hle := spawnedFrom_mem_index _ _ q hq2
        rw [hqp] at hle
        rw [hnext1] at hle
        exact absurd (hwf p hp) (Nat.not_lt.mpr hle)
    cases mm with
    | simple =>
      show (applyEntities W.registry []
          (buildFallback (despawnStep w1 s [] dm))
          (despawnStep w1 s [] dm) s.entities).1 = none ∧
        (applyEntities W.registry []
          (buildFallback (despawnStep w1 s [] dm))
          (despawnStep w1 s [] dm) s.entities).2.entities.length = s.entities.length ∧
        (∀ p ∈ W.entities, (applyEntities W.registry []
          (buildFallback (despawnStep w1 s [] dm))
          (despawnStep w1 s [] dm) s.entities).2.isLive p.1 = false)
      rw [hdesp]
      have hb : buildFallback { w1 with entities := [] } = ([] : EntityMap) := rfl
      rw [hb]
      exact core
    | strict =>
      show (applyEntities W.registry [] []
          (despawnStep w1 s [] dm) s.entities).1 = none ∧
        (applyEntities W.registry [] []
          (despawnStep w1 s [] dm) s.entities).2.entities.length = s.entities.length ∧
        (∀ p ∈ W.entities, (applyEntities W.registry [] []
          (despawnStep w1 s [] dm) s.entities).2.isLive p.1 = false)
      rw [hdesp]
      exact core

/-- Fixture for the C9 witness: entity 7 is live and captured in the
snapshot, yet still despawned under Unmapped. -/
def c9World : World :=
  { registry := [], saveables := [], resources := []
    rollbacks := { checkpoints := [], active := Option.none }
    entities := [(⟨7, 0⟩, [])], nextEntity := 8 }

/-- Fixture for the C9 witness. -/
def c9Snap : RawSnapshot := { resources := [], entities := [⟨7, []⟩] }

theorem claim9_unmapped_despawns_all_witness :
    (Applier.apply c9World c9Snap [] DespawnMode.unmapped MappingMode.simple).1 = none ∧
    (Applier.apply c9World c9Snap [] DespawnMode.unmapped
      MappingMode.simple).2.entities.length = 1 ∧
    (Applier.apply c9World c9Snap [] DespawnMode.unmapped MappingMode.simple).2.isLive
      ⟨7, 0⟩ = false := by
  have h := claim9_unmapped_despawns_all c9World c9Snap MappingMode.simple
    DespawnMode.unmapped (Or.inl rfl)
    (show ∀ p ∈ c9World.entities, p.1.index < c9World.nextEntity by decide) rfl
    (by
      intro r hr c hc
      have hr2 : r = ⟨7, []⟩ := by simpa [c9Snap] using hr
      rw [hr2] at hc
      cases hc)
  exact ⟨h.1, h.2.1, h.2.2 (⟨7, 0⟩, []) (List.Mem.head _)⟩

/-- C4: under MappingMode::Simple with an empty EntityMap, a record whose
captured identity N matches the raw index of a live entity resolves to that
entity through the fallback map, mutating it, and applying a one-record
snapshot spawns nothing, leaving the live entity count unchanged; under
MappingMode::Strict an unmapped record always spawns a fresh entity, never
reusing by raw identity: the pre-existing entity rows are untouched and one
fresh row per record is appended. -/
theorem claim4_mapping_modes (W : World) (N : Nat) (cs : List Reflected) (s : RawSnapshot)
    (hlive : ∃ p ∈ W.entities, p.1.index = N)
    (hwf : World.wf W)
    (hres : (applyResources W.registry W s.resources).1 = none)
    (hcomp : ∀ r ∈ s.entities, ∀ c ∈ r.components, ∃ reg,
      registryGetWithName W.registry c.typeName = some reg ∧ reg.hasComponent = true) :
    (∃ t, resolveEntity [] (buildFallback W) { entity := N, components := cs } = some t ∧
      W.isLive t = true ∧ t.index = N) ∧
    (Applier.apply W { resources := [], entities := [{ entity := N, components := cs }] }
      [] DespawnMode.none MappingMode.simple).2.entities.length = W.entities.length ∧
    (Applier.apply W s [] DespawnMode.none MappingMode.strict).1 = none ∧
    (Applier.apply W s [] DespawnMode.none MappingMode.strict).2.entities =
      W.entities ++ spawnedFrom W.nextEntity s.entities := by
  obtain ⟨p0, hp0, hp0N⟩ := hlive
  have hsome : (EntityMap.get (buildFallback W) (Entity.fromRaw N)).isSome = true := by
    apply buildFallback_get_isSome
    exact ⟨p0, hp0, by rw [hp0N]⟩
  cases hg : EntityMap.get (buildFallback W) (Entity.fromRaw N) with
  | none =>
    rw [hg] at hsome
    cases hsome
  | some t =>
    obtain ⟨q, hq, hqk, hqt⟩ := buildFallback_get_sound W _ t hg
    have hres1 : resolveEntity [] (buildFallback W)
        { entity := N, components := cs } = some t := hg
    have htN : t.index = N := by
      rw [← hqt]
      have := congrArg Entity.index hqk
      simpa [Entity.fromRaw] using this
    refine ⟨⟨t, hres1, (isLive_iff W t).mpr ⟨q, hq, hqt⟩, htN⟩, ?_, ?_, ?_⟩
    · -- Simple: single record, no spawn
      have happly : Applier.apply W
          { resources := [], entities := [{ entity := N, components := cs }] }
          [] DespawnMode.none MappingMode.simple =
          applyEntities W.registry [] (buildFallback W) W
            [{ entity := N, components := cs }] := by
        rw [applierApply_eq2]
        rfl
      rw [happly]
      have hrec : applyRecord W.registry [] (buildFallback W) W
          { entity := N, components := cs } = applyComponents W.registry W t cs := by
        unfold applyRecord
        rw [show resolveEntity [] (buildFallback W)
          { entity := N, components := cs } = some t from hg]
      cases hac : applyComponents W.registry W t cs with
      | mk err wc =>
        have hlen := (applyComponents_fields W.registry cs W t).2.1
        rw [hac] at hlen
        cases err with
        | none =>
          rw [applyEntities_cons_ok W.registry [] (buildFallback W) W _ [] wc
            (hrec.trans hac), applyEntities_nil]
          exact hlen
        | some e =>
          rw [applyEntities_cons_err W.registry [] (buildFallback W) W _ [] e wc
            (hrec.trans hac)]
          exact hlen
    · -- Strict: apply succeeds
      rw [applierApply_eq2]
      cases hresE : applyResources W.registry W s.resources with
      | mk err w1 =>
        rw [hresE] at hres
        have herr : err = none := hres
        subst herr
        obtain ⟨hent1, hnext1, -, -, -⟩ := applyResources_fields W.registry s.resources W
        rw [hresE] at hent1 hnext1
        have hwf1 : World.wf w1 := by
          intro p hp
          rw [hnext1]
          apply hwf
          rw [← hent1]
          exact hp
        show (applyEntities W.registry [] []
          (despawnStep w1 s [] DespawnMode.none) s.entities).1 = none
        rw [show despawnStep w1 s [] DespawnMode.none = w1 from rfl,
          applyEntities_strict_spawn W.registry s.entities w1 hwf1 hcomp]
    · -- Strict: appended fresh rows, pre-existing untouched
      rw [applierApply_eq2]
      cases hresE : applyResources W.registry W s.resources with
      | mk err w1 =>
        rw [hresE] at hres
        have herr : err = none := hres
        subst herr
        obtain ⟨hent1, hnext1, -, -, -⟩ := applyResources_fields W.registry s.resources W
        rw [hresE] at hent1 hnext1
        have hwf1 : World.wf w1 := by
          intro p hp
          rw [hnext1]
          apply hwf
          rw [← hent1]
          exact hp
        show (applyEntities W.registry [] []
          (despawnStep w1 s [] DespawnMode.none) s.entities).2.entities =
          W.entities ++ spawnedFrom W.nextEntity s.entities
        rw [show despawnStep w1 s [] DespawnMode.none = w1 from rfl,
          applyEntities_strict_spawn W.registry s.entities w1 hwf1 hcomp]
        show w1.entities ++ spawnedFrom w1.nextEntity s.entities =
          W.entities ++ spawnedFrom W.nextEntity s.entities
        rw [hent1, hnext1]

/-- Fixture for the C4 witness: a live entity with index 3 and generation
2; the record with identity 3 reuses it under Simple. -/
def c4World : World :=
  { registry := [], saveables := [], resources := []
    rollbacks := { checkpoints := [], active := Option.none }
    entities := [(⟨3, 2⟩, [])], nextEntity := 4 }

/-- Fixture for the C4 witness. -/
def c4Snap : RawSnapshot := { resources := [], entities := [⟨9, []⟩] }

theorem claim4_mapping_modes_witness :
    (∃ t, resolveEntity [] (buildFallback c4World) { entity := 3, components := [] } =
      some t ∧ c4World.isLive t = true ∧ t.index = 3) ∧
    (Applier.apply c4World { resources := [], entities := [{ entity := 3, components := [] }] }
      [] DespawnMode.none MappingMode.simple).2.entities.length = c4World.entities.length ∧
    (Applier.apply c4World c4Snap [] DespawnMode.none MappingMode.strict).1 = none ∧
    (Applier.apply c4World c4Snap [] DespawnMode.none MappingMode.strict).2.entities =
      c4World.entities ++ spawnedFrom c4World.nextEntity c4Snap.entities := by
  apply claim4_mapping_modes c4World 3 [] c4Snap
    ⟨(⟨3, 2⟩, []), List.Mem.head _, rfl⟩
    (show ∀ p ∈ c4World.entities, p.1.index < c4World.nextEntity by decide) rfl
  intro r hr c hc
  have hr2 : r = ⟨9, []⟩ := by simpa [c4Snap] using hr
  rw [hr2] at hc
  cases hc

/-- The empty target world of the round-trip property: same registries as
`w`, no resources, no entities, allocator reset. -/
def emptyWorldLike (w : World) : World :=
  { w with resources := [], entities := [], nextEntity := 0 }

/-- Renumbering of a list of component lists as consecutively spawned
entities starting at index `n`. Specification helper for the round-trip
statement. -/
def renumber : Nat → List (List Reflected) → List (Entity × List Reflected)
  | _, [] => []
  | n, cs :: rest => (⟨n, 0⟩, cs) :: renumber (n + 1) rest

lemma admitsComponent_registered (w : World) (filter : TypeRegistration → Bool)
    (c : Reflected) (h : admitsComponent w filter c = true) :
    ∃ reg, registryGetWithName w.registry c.typeName = some reg ∧
      reg.hasComponent = true := by
  unfold admitsComponent at h
  rw [Bool.and_eq_true] at h
  have h2 := h.2
  cases hreg : registryGetWithName w.registry c.typeName with
  | none =>
    rw [hreg] at h2
    cases h2
  | some reg =>
    rw [hreg] at h2
    have h3 : (filter reg && reg.hasComponent) = true := h2
    rw [Bool.and_eq_true] at h3
    exact ⟨reg, rfl, h3.2⟩

lemma upsertAll_nil_of_nodup (cs : List Reflected)
    (hnodup : (cs.map (fun c => c.typeName)).Nodup) : upsertAll [] cs = cs := by
  have h := upsertAll_append_of_disjoint cs []
    (fun v hv r hr => absurd hr (List.not_mem_nil r)) hnodup
  simpa using h

lemma spawnedFrom_renumber (l : List (Entity × List Reflected)) (n : Nat)
    (g : Entity × List Reflected → SaveableEntity)
    (hg : ∀ p ∈ l, upsertAll [] (g p).components = p.2) :
    spawnedFrom n (l.map g) = renumber n (l.map (fun p => p.2)) := by
  induction l generalizing n with
  | nil => rfl
  | cons p l ih =>
    rw [List.map_cons, List.map_cons]
    show (⟨n, 0⟩, upsertAll [] (g p).components) :: spawnedFrom (n + 1) (l.map g) =
      (⟨n, 0⟩, p.2) :: renumber (n + 1) (l.map (fun q => q.2))
    rw [ih (n + 1) (fun q hq => hg q (List.mem_cons_of_mem p hq)),
      hg p (List.mem_cons_self p l)]

lemma roundtrip_resources (W : World)
    (hres : ∀ v ∈ W.resources, saveablesContains W.saveables v.typeName = true ∧
      ∃ reg, registryGetWithName W.registry v.typeName = some reg ∧ reg.hasResource = true)
    (n : String) :
    resourceGet (upsertAll [] (captureResources W (fun _ => true))) n =
      resourceGet W.resources n := by
  rw [resourceGet_upsertAll]
  have h0 : resourceGet ([] : List Reflected) n = none := rfl
  rw [h0, Option.or_none]
  cases hW : resourceGet W.resources n with
  | some v =>
    have hvmem : v ∈ W.resources := List.mem_of_find?_eq_some hW
    have hvn : v.typeName = n := find?_name_eq _ _ _ hW
    obtain ⟨hsv, reg, hreg, hr⟩ := hres v hvmem
    have hcap : v ∈ captureResources W (fun _ => true) := by
      apply captureResources_exists W (fun _ => true) n v reg
      · rw [← hvn]
        exact hsv
      · rw [← hvn]
        exact hreg
      · rfl
      · exact hr
      · exact hW
    apply resourceGet_eq_some_of_all
    · exact ⟨v, List.mem_reverse.mpr hcap, hvn⟩
    · intro r hr2 hrn
      have hr3 := List.mem_reverse.mp hr2
      obtain ⟨reg2, hreg2, hr4, hf2, hres2⟩ := captureResources_mem W _ r hr3
      rw [hrn, hW] at hres2
      exact Option.some_inj.mp hres2.symm
  | none =>
    apply resourceGet_eq_none_of_none
    intro r hr2 hrn
    have hr3 := List.mem_reverse.mp hr2
    obtain ⟨reg2, hreg2, hr4, hf2, hres2⟩ := captureResources_mem W _ r hr3
    rw [hrn, hW] at hres2
    cases hres2

/-- C2: round trip. Capturing a world whose resources and components are all
admitted (registered with the fitting capability and saveable) and applying
the capture onto an empty world with an empty EntityMap, DespawnMode::None
and MappingMode::Strict succeeds and reproduces, entity by entity in order,
the same component values under renamed consecutive identities, and the
same resource values per type name. -/
theorem claim2_round_trip (W : World)
    (hres : ∀ v ∈ W.resources, saveablesContains W.saveables v.typeName = true ∧
      ∃ reg, registryGetWithName W.registry v.typeName = some reg ∧ reg.hasResource = true)
    (hcomp : ∀ p ∈ W.entities, ∀ c ∈ p.2, admitsComponent W (fun _ => true) c = true)
    (hnodup : ∀ p ∈ W.entities, (p.2.map (fun c => c.typeName)).Nodup) :
    (Applier.apply (emptyWorldLike W) (RawSnapshot.fromWorldWithFilter W (fun _ => true))
      [] DespawnMode.none MappingMode.strict).1 = none ∧
    (Applier.apply (emptyWorldLike W) (RawSnapshot.fromWorldWithFilter W (fun _ => true))
      [] DespawnMode.none MappingMode.strict).2.entities =
      renumber 0 (W.entities.map (fun p => p.2)) ∧
    (∀ n, resourceGet (Applier.apply (emptyWorldLike W)
      (RawSnapshot.fromWorldWithFilter W (fun _ => true))
      [] DespawnMode.none MappingMode.strict).2.resources n =
      resourceGet W.resources n) := by
  have hResOk : applyResources (emptyWorldLike W).registry (emptyWorldLike W)
      (RawSnapshot.fromWorldWithFilter W (fun _ => true)).resources =
      (none, { emptyWorldLike W with
        resources := upsertAll [] (captureResources W (fun _ => true)) }) := by
    have h2 := applyResources_ok (emptyWorldLike W).registry
      (captureResources W (fun _ => true)) (emptyWorldLike W) ?_
    · exact h2
    · intro v hv
      obtain ⟨reg, hreg, hr, -, -⟩ := captureResources_mem W _ v hv
      exact ⟨reg, hreg, hr⟩
  have happly : Applier.apply (emptyWorldLike W)
      (RawSnapshot.fromWorldWithFilter W (fun _ => true)) [] DespawnMode.none
      MappingMode.strict =
      applyEntities (emptyWorldLike W).registry [] []
        { emptyWorldLike W with
          resources := upsertAll [] (captureResources W (fun _ => true)) }
        (RawSnapshot.fromWorldWithFilter W (fun _ => true)).entities := by
    rw [applierApply_eq2, hResOk]
    rfl
  have hwfAR : World.wf { emptyWorldLike W with
      resources := upsertAll [] (captureResources W (fun _ => true)) } := by
    intro p hp
    cases hp
  have hcompRec : ∀ r ∈ (RawSnapshot.fromWorldWithFilter W (fun _ => true)).entities,
      ∀ c ∈ r.components, ∃ reg,
      registryGetWithName (emptyWorldLike W).registry c.typeName = some reg ∧
        reg.hasComponent = true := by
    intro r hr c hc
    obtain ⟨p, hp, hpr⟩ := List.mem_map.mp hr
    rw [← hpr] at hc
    have hc2 : c ∈ p.2.filter (fun c2 => admitsComponent W (fun _ => true) c2) := hc
    have hadm := (List.mem_filter.mp hc2).2
    exact admitsComponent_registered W _ c hadm
  have happ := applyEntities_strict_spawn (emptyWorldLike W).registry
    (RawSnapshot.fromWorldWithFilter W (fun _ => true)).entities
    { emptyWorldLike W with
      resources := upsertAll [] (captureResources W (fun _ => true)) } hwfAR hcompRec
  rw [happly, happ]
  refine ⟨rfl, ?_, ?_⟩
  · show ([] : List (Entity × List Reflected)) ++
      spawnedFrom 0 (RawSnapshot.fromWorldWithFilter W (fun _ => true)).entities =
      renumber 0 (W.entities.map (fun p => p.2))
    rw [List.nil_append]
    show spawnedFrom 0 (W.entities.map (fun p =>
      ({ entity := p.1.index
         components := p.2.filter (fun c => admitsComponent W (fun _ => true) c) } :
        SaveableEntity))) = renumber 0 (W.entities.map (fun p => p.2))
    apply spawnedFrom_renumber
    intro p hp
    show upsertAll [] (p.2.filter (fun c => admitsComponent W (fun _ => true) c)) = p.2
    rw [List.filter_eq_self.mpr (hcomp p hp)]
    exact upsertAll_nil_of_nodup p.2 (hnodup p hp)
  · intro n
    show resourceGet (upsertAll [] (captureResources W (fun _ => true))) n =
      resourceGet W.resources n
    exact roundtrip_resources W hres n

/-- Fixture for the C2 witness: one saveable component type, one saveable
resource type, a resource value, one entity with a component and one
without. -/
def c2World : World :=
  { registry := [{ typeName := "Position", hasResource := false, hasComponent := true, hasMapEntities := false },
      { typeName := "Score", hasResource := true, hasComponent := false, hasMapEntities := false }]
    saveables := [("Position", true), ("Score", true)]
    resources := [{ typeName := "Score", value := 5 }]
    rollbacks := { checkpoints := [], active := Option.none }
    entities := [(⟨0, 0⟩, [{ typeName := "Position", value := 1 }]), (⟨2, 0⟩, [])]
    nextEntity := 3 }

theorem claim2_round_trip_witness :
    (Applier.apply (emptyWorldLike c2World)
      (RawSnapshot.fromWorldWithFilter c2World (fun _ => true))
      [] DespawnMode.none MappingMode.strict).1 = none ∧
    (Applier.apply (emptyWorldLike c2World)
      (RawSnapshot.fromWorldWithFilter c2World (fun _ => true))
      [] DespawnMode.none MappingMode.strict).2.entities =
      renumber 0 (c2World.entities.map (fun p => p.2)) ∧
    resourceGet (Applier.apply (emptyWorldLike c2World)
      (RawSnapshot.fromWorldWithFilter c2World (fun _ => true))
      [] DespawnMode.none MappingMode.strict).2.resources "Score" =
      resourceGet c2World.resources "Score" := by
  have h := claim2_round_trip c2World ?hr ?hc ?hn
  · exact ⟨h.1, h.2.1, h.2.2 "Score"⟩
  case hr =>
    intro v hv
    have hv2 : v = { typeName := "Score", value := 5 } := by
      simpa [c2World] using hv
    subst hv2
    refine ⟨by decide, ⟨{ typeName := "Score", hasResource := true, hasComponent := false, hasMapEntities := false }, by decide, rfl⟩⟩
  case hc =>
    intro p hp c hc
    have hp2 : p = ((⟨0, 0⟩ : Entity), [({ typeName := "Position", value := 1 } : Reflected)]) ∨
        p = ((⟨2, 0⟩ : Entity), ([] : List Reflected)) := by
      simpa [c2World] using hp
    have hc2 : c = { typeName := "Position", value := 1 } := by
      rcases hp2 with h1 | h1
      · rw [h1] at hc
        simpa using hc
      · rw [h1] at hc
        simp at hc
    rw [hc2]
    decide
  case hn =>
    intro p hp
    have hp2 : p = ((⟨0, 0⟩ : Entity), [({ typeName := "Position", value := 1 } : Reflected)]) ∨
        p = ((⟨2, 0⟩ : Entity), ([] : List Reflected)) := by
      simpa [c2World] using hp
    rcases hp2 with h1 | h1
    · rw [h1]
      decide
    · rw [h1]
      decide

/-! ### Machinery for the idempotence analysis -/

/-- The composite entity rewrite performed by the entity application loop
when every record resolves to the generation-zero entity of its captured
identity. Specification helper. -/
def applyRecordsFold (l : List (Entity × List Reflected)) :
    List SaveableEntity → List (Entity × List Reflected)
  | [] => l
  | r :: rs =>
    applyRecordsFold
      (updateEntityComponents l (Entity.fromRaw r.entity)
        (fun cs => upsertAll cs r.components)) rs

lemma applyRecordsFold_fst (rs : List SaveableEntity) (l : List (Entity × List Reflected)) :
    (applyRecordsFold l rs).map Prod.fst = l.map Prod.fst := by
  induction rs generalizing l with
  | nil => rfl
  | cons r rs ih =>
    show (applyRecordsFold (updateEntityComponents l (Entity.fromRaw r.entity)
      (fun cs => upsertAll cs r.components)) rs).map Prod.fst = l.map Prod.fst
    rw [ih, updateEntityComponents_fst]

lemma nodup_index_of_gen0 (l : List (Entity × List Reflected))
    (hids : (l.map Prod.fst).Nodup) (hgen : ∀ p ∈ l, p.1.generation = 0) :
    (l.map (fun q => q.1.index)).Nodup := by
  have heq : l.map (fun q => q.1.index) = (l.map Prod.fst).map (fun e => e.index) := by
    rw [List.map_map]
    rfl
  rw [heq]
  apply List.Nodup.map_on ?_ hids
  intro x hx y hy hxy
  obtain ⟨px, hpx, hpx2⟩ := List.mem_map.mp hx
  obtain ⟨py, hpy, hpy2⟩ := List.mem_map.mp hy
  have hx0 : x.generation = 0 := by
    rw [← hpx2]
    exact hgen px hpx
  have hy0 : y.generation = 0 := by
    rw [← hpy2]
    exact hgen py hpy
  rw [entity_eq_fromRaw x hx0, entity_eq_fromRaw y hy0, hxy]

lemma find?_key_self (rs : List SaveableEntity) (r2 : SaveableEntity) (hr2 : r2 ∈ rs)
    (hkeys : (rs.map (fun r => r.entity)).Nodup) :
    rs.find? (fun r => Entity.fromRaw r.entity == Entity.fromRaw r2.entity) = some r2 := by
  induction rs with
  | nil => cases hr2
  | cons r rs ih =>
    rcases List.mem_cons.mp hr2 with h1 | h1
    · subst h1
      rw [List.find?_cons_of_pos _ (by simp)]
    · have hne : r.entity ≠ r2.entity := by
        intro h
        apply (List.nodup_cons.mp hkeys).1
        show r.entity ∈ rs.map (fun r3 => r3.entity)
        rw [h]
        exact List.mem_map_of_mem (fun r3 => r3.entity) h1
      rw [List.find?_cons_of_neg _ (by simp [Entity.fromRaw, hne]), ih h1
        (List.nodup_cons.mp hkeys).2]

lemma step_then_rest (r : SaveableEntity) (rs : List SaveableEntity)
    (hkeys : ((r :: rs).map (fun r3 => r3.entity)).Nodup)
    (p : Entity × List Reflected) :
    (fun q =>
      match rs.find? (fun r3 => Entity.fromRaw r3.entity == q.1) with
      | some r3 => (q.1, upsertAll q.2 r3.components)
      | none => q)
    (if p.1 == Entity.fromRaw r.entity then (p.1, upsertAll p.2 r.components) else p) =
      match (r :: rs).find? (fun r3 => Entity.fromRaw r3.entity == p.1) with
      | some r3 => (p.1, upsertAll p.2 r3.components)
      | none => p := by
  by_cases hpk : p.1 = Entity.fromRaw r.entity
  · rw [if_pos (by simp [hpk])]
    have hfind : rs.find? (fun r3 => Entity.fromRaw r3.entity == p.1) = none := by
      rw [List.find?_eq_none]
      intro r3 hr3
      simp only [beq_eq_false_iff_ne, ne_eq, beq_iff_eq, Bool.not_eq_true]
      intro hip
      rw [hpk] at hip
      have hie : r3.entity = r.entity := by
        have := congrArg Entity.index hip
        simpa [Entity.fromRaw] using this
      apply (List.nodup_cons.mp hkeys).1
      show r.entity ∈ rs.map (fun r4 => r4.entity)
      rw [← hie]
      exact List.mem_map_of_mem (fun r4 => r4.entity) hr3
    have hfind2 : (r :: rs).find? (fun r3 => Entity.fromRaw r3.entity == p.1) = some r := by
      rw [List.find?_cons_of_pos _ (by simp [hpk])]
    rw [hfind2]
    show (match rs.find? (fun r3 => Entity.fromRaw r3.entity == p.1) with
      | some r3 => (p.1, upsertAll (upsertAll p.2 r.components) r3.components)
      | none => (p.1, upsertAll p.2 r.components)) = (p.1, upsertAll p.2 r.components)
    rw [hfind]
  · rw [if_neg (by simp [hpk])]
    have hfind2 : (r :: rs).find? (fun r3 => Entity.fromRaw r3.entity == p.1) =
        rs.find? (fun r3 => Entity.fromRaw r3.entity == p.1) := by
      rw [List.find?_cons_of_neg _ (by simp [Ne.symm hpk])]
    rw [hfind2]

lemma applyRecordsFold_getElem (rs : List SaveableEntity)
    (l : List (Entity × List Reflected)) (i : Nat)
    (hkeys : (rs.map (fun r => r.entity)).Nodup) :
    (applyRecordsFold l rs)[i]? = (l[i]?).map (fun p =>
      match rs.find? (fun r => Entity.fromRaw r.entity == p.1) with
      | some r => (p.1, upsertAll p.2 r.components)
      | none => p) := by
  induction rs generalizing l with
  | nil =>
    show l[i]? = _
    cases l[i]? with
    | none => rfl
    | some p => rfl
  | cons r rs ih =>
    show (applyRecordsFold (updateEntityComponents l (Entity.fromRaw r.entity)
      (fun cs => upsertAll cs r.components)) rs)[i]? = _
    rw [ih _ (List.nodup_cons.mp hkeys).2]
    unfold updateEntityComponents
    rw [List.getElem?_map, Option.map_map]
    cases hl : l[i]? with
    | none => rfl
    | some p =>
      show some _ = some _
      congr 1
      exact step_then_rest r rs hkeys p

lemma applyEntities_resolved (registry : List TypeRegistration) (fb : EntityMap)
    (rs : List SaveableEntity) (w : World)
    (hresolve : ∀ r ∈ rs, resolveEntity [] fb r = some (Entity.fromRaw r.entity))
    (hcomp : ∀ r ∈ rs, ∀ c ∈ r.components, ∃ reg,
      registryGetWithName registry c.typeName = some reg ∧ reg.hasComponent = true) :
    applyEntities registry [] fb w rs =
      (none, { w with entities := applyRecordsFold w.entities rs }) := by
  induction rs generalizing w with
  | nil => rfl
  | cons r rs ih =>
    have hrec : applyRecord registry [] fb w r =
        (none, { w with
            entities := updateEntityComponents w.entities
              (Entity.fromRaw r.entity) (fun cs => upsertAll cs r.components) }) := by
      unfold applyRecord
      rw [hresolve r (List.mem_cons_self r rs)]
      exact applyComponents_ok registry r.components w _ (hcomp r (List.mem_cons_self r rs))
    rw [applyEntities_cons_ok registry [] fb w r rs _ hrec,
      ih _ (fun r2 hr2 => hresolve r2 (List.mem_cons_of_mem r hr2))
        (fun r2 hr2 => hcomp r2 (List.mem_cons_of_mem r hr2))]
    rfl

lemma applyEntities_noop (registry : List TypeRegistration) (fb : EntityMap)
    (rs : List SaveableEntity) (u : World)
    (hresolve : ∀ r ∈ rs, resolveEntity [] fb r = some (Entity.fromRaw r.entity))
    (hcomp : ∀ r ∈ rs, ∀ c ∈ r.components, ∃ reg,
      registryGetWithName registry c.typeName = some reg ∧ reg.hasComponent = true)
    (hfix : ∀ r ∈ rs, ∀ p ∈ u.entities, p.1 = Entity.fromRaw r.entity →
      upsertAll p.2 r.components = p.2) :
    applyEntities registry [] fb u rs = (none, u) := by
  induction rs with
  | nil => rfl
  | cons r rs ih =>
    have hrec : applyRecord registry [] fb u r = (none, u) := by
      unfold applyRecord
      rw [hresolve r (List.mem_cons_self r rs)]
      show applyComponents registry u (Entity.fromRaw r.entity) r.components = (none, u)
      rw [applyComponents_ok registry r.components u _ (hcomp r (List.mem_cons_self r rs))]
      rw [updateEntityComponents_noop u.entities _ _
        (fun p hp hpe => hfix r (List.mem_cons_self r rs) p hp hpe)]
    rw [applyEntities_cons_ok registry [] fb u r rs _ hrec]
    exact ih (fun r2 hr2 => hresolve r2 (List.mem_cons_of_mem r hr2))
      (fun r2 hr2 => hcomp r2 (List.mem_cons_of_mem r hr2))
      (fun r2 hr2 => hfix r2 (List.mem_cons_of_mem r hr2))

lemma despawnStep_missing_keep_all (w : World) (s : RawSnapshot)
    (h : ∀ p ∈ w.entities,
      ((s.entities.map (fun r => r.tryMap ([] : EntityMap))).contains p.1) = true) :
    despawnStep w s [] DespawnMode.missing = w := by
  rw [despawnStep_missing_eq, List.filter_eq_self.mpr h]

lemma applyRecordsFold_fix (rs : List SaveableEntity)
    (l : List (Entity × List Reflected))
    (hkeys : (rs.map (fun r => r.entity)).Nodup)
    (hcnodup : ∀ r ∈ rs, (r.components.map (fun c => c.typeName)).Nodup) :
    ∀ r2 ∈ rs, ∀ p ∈ applyRecordsFold l rs, p.1 = Entity.fromRaw r2.entity →
      upsertAll p.2 r2.components = p.2 := by
  intro r2 hr2 p hp hpe
  obtain ⟨i, hi⟩ := List.mem_iff_getElem?.mp hp
  rw [applyRecordsFold_getElem rs l i hkeys] at hi
  obtain ⟨q, hq, hgq⟩ := Option.map_eq_some'.mp hi
  cases hfind : rs.find? (fun r => Entity.fromRaw r.entity == q.1) with
  | none =>
    rw [hfind] at hgq
    rw [← hgq] at hpe
    have : (Entity.fromRaw r2.entity == q.1) = true := by
      simp [← hpe]
    have h2 := List.find?_eq_none.mp hfind r2 hr2
    simp [this] at h2
  | some r3 =>
    rw [hfind] at hgq
    have hq1 : q.1 = Entity.fromRaw r2.entity := by
      rw [← hgq] at hpe
      exact hpe
    have hr3mem : r3 ∈ rs := List.mem_of_find?_eq_some hfind
    have hr3pred := List.find?_some hfind
    have hr3k : Entity.fromRaw r3.entity = q.1 := by simpa using hr3pred
    have hr3r2 : r3 = r2 := by
      have hent : r3.entity = r2.entity := by
        have := congrArg Entity.index (hr3k.trans hq1)
        simpa [Entity.fromRaw] using this
      exact List.inj_on_of_nodup_map hkeys hr3mem hr2 hent
    subst hr3r2
    rw [← hgq]
    show upsertAll (upsertAll q.2 r3.components) r3.components = upsertAll q.2 r3.components
    exact upsertAll_idem q.2 r3.components (hcnodup r3 hr2)

/-- The entities surviving the RemoveMissing despawn classification under an
empty EntityMap. Specification helper. -/
def missingSurvivors (w : World) (s : RawSnapshot) : List (Entity × List Reflected) :=
  w.entities.filter
    (fun q => (s.entities.map (fun r => r.tryMap ([] : EntityMap))).contains q.1)

/-- The world state produced by one successful apply with RemoveMissing and
PreferIdentityReuse when every record resolves through the fallback.
Specification helper. -/
def onceApplied (w : World) (s : RawSnapshot) : World :=
  { w with
      resources := upsertAll w.resources s.resources
      entities := applyRecordsFold (missingSurvivors w s) s.entities }

lemma applier_missing_simple_char (W : World) (s : RawSnapshot)
    (hrreg : ∀ v ∈ s.resources, ∃ reg,
      registryGetWithName W.registry v.typeName = some reg ∧ reg.hasResource = true)
    (hresolve : ∀ r ∈ s.entities, resolveEntity []
      (buildFallback { W with
        resources := upsertAll W.resources s.resources
        entities := missingSurvivors W s }) r = some (Entity.fromRaw r.entity))
    (hcomp : ∀ r ∈ s.entities, ∀ c ∈ r.components, ∃ reg,
      registryGetWithName W.registry c.typeName = some reg ∧ reg.hasComponent = true) :
    Applier.apply W s [] DespawnMode.missing MappingMode.simple =
      (none, onceApplied W s) := by
  rw [applierApply_eq2, applyResources_ok W.registry s.resources W hrreg]
  have hd : despawnStep { W with resources := upsertAll W.resources s.resources } s []
      DespawnMode.missing =
      { W with
          resources := upsertAll W.resources s.resources
          entities := missingSurvivors W s } := by
    rw [despawnStep_missing_eq]
    rfl
  show applyEntities W.registry []
      (buildFallback (despawnStep { W with resources := upsertAll W.resources s.resources }
        s [] DespawnMode.missing))
      (despawnStep { W with resources := upsertAll W.resources s.resources }
        s [] DespawnMode.missing) s.entities = (none, onceApplied W s)
  rw [hd, applyEntities_resolved W.registry _ s.entities _ hresolve hcomp]
  rfl

lemma applier_missing_simple_noop (U : World) (s : RawSnapshot)
    (hres2 : applyResources U.registry U s.resources = (none, U))
    (hdesp2 : despawnStep U s [] DespawnMode.missing = U)
    (hresolve2 : ∀ r ∈ s.entities, resolveEntity [] (buildFallback U) r =
      some (Entity.fromRaw r.entity))
    (hcomp : ∀ r ∈ s.entities, ∀ c ∈ r.components, ∃ reg,
      registryGetWithName U.registry c.typeName = some reg ∧ reg.hasComponent = true)
    (hfix : ∀ r ∈ s.entities, ∀ p ∈ U.entities, p.1 = Entity.fromRaw r.entity →
      upsertAll p.2 r.components = p.2) :
    Applier.apply U s [] DespawnMode.missing MappingMode.simple = (none, U) := by
  rw [applierApply_eq2, hres2]
  show applyEntities U.registry []
      (buildFallback (despawnStep U s [] DespawnMode.missing))
      (despawnStep U s [] DespawnMode.missing) s.entities = (none, U)
  rw [hdesp2]
  exact applyEntities_noop U.registry (buildFallback U) s.entities U hresolve2 hcomp hfix

/-- The world after one Snapshot apply with RemoveMissing and
PreferIdentityReuse in the resolving case, the rollback History already
overwritten. Specification helper. -/
def onceAppliedRb (w : World) (s : Snapshot) : World :=
  { onceApplied w s.snapshot with rollbacks := s.rollbacks }

/-- C8 as stated is false: a snapshot record whose identity is not live
forces a fresh spawn, and the two applications spawn entities with
different indices (0 then 1), so the twice-applied world differs from the
once-applied world. -/
theorem claim8_counterexample :
    (let s8 : Snapshot := { snapshot := { resources := [], entities := [⟨5, []⟩] }
                            rollbacks := { checkpoints := [], active := Option.none } }
     let w8 : World := { registry := [], saveables := [], resources := [],
                         rollbacks := { checkpoints := [], active := Option.none },
                         entities := [], nextEntity := 0 }
     (Snapshot.applyWith s8
        (Snapshot.applyWith s8 w8 [] DespawnMode.missing MappingMode.simple).2
        [] DespawnMode.missing MappingMode.simple).2 ≠
       (Snapshot.applyWith s8 w8 [] DespawnMode.missing MappingMode.simple).2) := by
  decide

/-- C8 amended: applying the same Snapshot twice in succession with
RemoveMissing and PreferIdentityReuse and an empty EntityMap yields the
same world as applying it once, provided every record identity is live at
generation zero in the starting world, so that no fresh spawn occurs; the
invariants assumed are distinct live ids, distinct record identities and
per-record distinct component type names, and every snapshot type
registered with the fitting capability. Without the liveness proviso the
spawned entity identities differ between the two applications. -/
theorem claim8_idempotent_amended (W : World) (s : Snapshot)
    (hids : (W.entities.map Prod.fst).Nodup)
    (hrec : ∀ r ∈ s.snapshot.entities, ∃ cs, (Entity.fromRaw r.entity, cs) ∈ W.entities)
    (hrid : (s.snapshot.entities.map (fun r => r.entity)).Nodup)
    (hcomp : ∀ r ∈ s.snapshot.entities, ∀ c ∈ r.components, ∃ reg,
      registryGetWithName W.registry c.typeName = some reg ∧ reg.hasComponent = true)
    (hcnodup : ∀ r ∈ s.snapshot.entities, (r.components.map (fun c => c.typeName)).Nodup)
    (hrreg : ∀ v ∈ s.snapshot.resources, ∃ reg,
      registryGetWithName W.registry v.typeName = some reg ∧ reg.hasResource = true)
    (hrnodup : (s.snapshot.resources.map (fun v => v.typeName)).Nodup) :
    (Snapshot.applyWith s W [] DespawnMode.missing MappingMode.simple).1 = none ∧
    Snapshot.applyWith s
      (Snapshot.applyWith s W [] DespawnMode.missing MappingMode.simple).2
      [] DespawnMode.missing MappingMode.simple =
      Snapshot.applyWith s W [] DespawnMode.missing MappingMode.simple := by
  have hKids : ((missingSurvivors W s.snapshot).map Prod.fst).Nodup :=
    List.Nodup.sublist (List.Sublist.map Prod.fst (List.filter_sublist W.entities)) hids
  have hKgen : ∀ p ∈ missingSurvivors W s.snapshot, p.1.generation = 0 := by
    intro p hp
    have h2 := (List.mem_filter.mp hp).2
    have h3 := (contains_iff_mem _ _).mp h2
    obtain ⟨r, hr, hre⟩ := List.mem_map.mp h3
    rw [saveableTryMap_nil] at hre
    rw [← hre]
    rfl
  have hKidx := nodup_index_of_gen0 _ hKids hKgen
  have hKmem : ∀ r ∈ s.snapshot.entities, ∃ cs,
      (Entity.fromRaw r.entity, cs) ∈ missingSurvivors W s.snapshot := by
    intro r hr
    obtain ⟨cs, hmem⟩ := hrec r hr
    refine ⟨cs, List.mem_filter.mpr ⟨hmem, ?_⟩⟩
    apply (contains_iff_mem _ _).mpr
    exact List.mem_map.mpr ⟨r, hr, by rw [saveableTryMap_nil]⟩
  have hresolveK : ∀ r ∈ s.snapshot.entities,
      resolveEntity [] (buildFallback { W with
        resources := upsertAll W.resources s.snapshot.resources
        entities := missingSurvivors W s.snapshot }) r =
        some (Entity.fromRaw r.entity) := by
    intro r hr
    show EntityMap.get (buildFallback _) (Entity.fromRaw r.entity) =
      some (Entity.fromRaw r.entity)
    obtain ⟨cs, hmem⟩ := hKmem r hr
    exact buildFallback_get_nodup _ (Entity.fromRaw r.entity, cs) hmem hKidx
  have hchar := applier_missing_simple_char W s.snapshot hrreg hresolveK hcomp
  have happly1 : Snapshot.applyWith s W [] DespawnMode.missing MappingMode.simple =
      (none, onceAppliedRb W s) := by
    unfold Snapshot.applyWith
    rw [hchar]
    rfl
  refine ⟨by rw [happly1], ?_⟩
  rw [happly1]
  show Snapshot.applyWith s (onceAppliedRb W s) [] DespawnMode.missing MappingMode.simple =
    (none, onceAppliedRb W s)
  have hres2 : applyResources (onceAppliedRb W s).registry (onceAppliedRb W s)
      s.snapshot.resources = (none, onceAppliedRb W s) := by
    rw [applyResources_ok (onceAppliedRb W s).registry s.snapshot.resources
      (onceAppliedRb W s) hrreg]
    have hidem : upsertAll (onceAppliedRb W s).resources s.snapshot.resources =
        (onceAppliedRb W s).resources := by
      show upsertAll (upsertAll W.resources s.snapshot.resources) s.snapshot.resources =
        upsertAll W.resources s.snapshot.resources
      exact upsertAll_idem W.resources s.snapshot.resources hrnodup
    rw [hidem]
  have hfst2 : (onceAppliedRb W s).entities.map Prod.fst =
      (missingSurvivors W s.snapshot).map Prod.fst := by
    show (applyRecordsFold (missingSurvivors W s.snapshot) s.snapshot.entities).map
      Prod.fst = _
    exact applyRecordsFold_fst _ _
  have hdesp2 : despawnStep (onceAppliedRb W s) s.snapshot [] DespawnMode.missing =
      onceAppliedRb W s := by
    apply despawnStep_missing_keep_all
    intro p hp
    have h1 : p.1 ∈ (onceAppliedRb W s).entities.map Prod.fst :=
      List.mem_map_of_mem Prod.fst hp
    rw [hfst2] at h1
    obtain ⟨q, hq, hq1⟩ := List.mem_map.mp h1
    have h2 := (List.mem_filter.mp hq).2
    rw [← hq1]
    exact h2
  have hfb2 : buildFallback (onceAppliedRb W s) = buildFallback { W with
      resources := upsertAll W.resources s.snapshot.resources
      entities := missingSurvivors W s.snapshot } := by
    apply buildFallback_congr
    rw [hfst2]
  have hresolve2 : ∀ r ∈ s.snapshot.entities,
      resolveEntity [] (buildFallback (onceAppliedRb W s)) r =
        some (Entity.fromRaw r.entity) := by
    intro r hr
    rw [hfb2]
    exact hresolveK r hr
  have hfix2 : ∀ r ∈ s.snapshot.entities, ∀ p ∈ (onceAppliedRb W s).entities,
      p.1 = Entity.fromRaw r.entity → upsertAll p.2 r.components = p.2 := by
    intro r hr p hp hpe
    exact applyRecordsFold_fix s.snapshot.entities (missingSurvivors W s.snapshot)
      hrid hcnodup r hr p hp hpe
  have hnoop := applier_missing_simple_noop (onceAppliedRb W s) s.snapshot hres2 hdesp2
    hresolve2 hcomp hfix2
  unfold Snapshot.applyWith
  rw [hnoop]
  rfl

def c8World : World :=
  { registry := [{ typeName := "Position", hasResource := false, hasComponent := true,
                   hasMapEntities := false },
                 { typeName := "Score", hasResource := true, hasComponent := false,
                   hasMapEntities := false }]
    saveables := [("Position", true), ("Score", true)]
    resources := [⟨"Score", 1⟩]
    rollbacks := { checkpoints := [], active := Option.none }
    entities := [(⟨1, 0⟩, [⟨"Position", 0⟩])], nextEntity := 2 }

def c8Snap : Snapshot :=
  { snapshot := { resources := [⟨"Score", 3⟩], entities := [⟨1, [⟨"Position", 9⟩]⟩] }
    rollbacks := { checkpoints := [], active := Option.none } }

theorem claim8_idempotent_amended_witness :
    (Snapshot.applyWith c8Snap c8World [] DespawnMode.missing MappingMode.simple).1 =
      none ∧
    Snapshot.applyWith c8Snap
      (Snapshot.applyWith c8Snap c8World [] DespawnMode.missing MappingMode.simple).2
      [] DespawnMode.missing MappingMode.simple =
      Snapshot.applyWith c8Snap c8World [] DespawnMode.missing MappingMode.simple :=
  claim8_idempotent_amended c8World c8Snap
    (by decide)
    (by
      intro r hr
      rw [List.mem_singleton.mp hr]
      exact ⟨[⟨"Position", 0⟩], by decide⟩)
    (by decide)
    (by
      intro r hr c hc
      rw [List.mem_singleton.mp hr] at hc
      rw [List.mem_singleton.mp hc]
      exact ⟨{ typeName := "Position", hasResource := false, hasComponent := true,
               hasMapEntities := false }, by decide, rfl⟩)
    (by
      intro r hr
      rw [List.mem_singleton.mp hr]
      decide)
    (by
      intro v hv
      rw [List.mem_singleton.mp hv]
      exact ⟨{ typeName := "Score", hasResource := true, hasComponent := false,
               hasMapEntities := false }, by decide, rfl⟩)
    (by decide)
